import Mathlib

set_option maxRecDepth 8192

/-!
Shallow embedding of a genetic-algorithm image evolver.  The repository has
two variants of the same program: a triangle-genome variant
(`monalisa_triangles/main.go`, namespace `Tri` below) and a raw-pixel
variant (namespace `Raw`), sharing an identical pixel-buffer layer
(namespace `GA`).

Modelling conventions:
* Machine integers are `Nat`/`Int` with explicit reduction modulo `2 ^ 64`
  exactly where Go's `uint64`/`int64` arithmetic can wrap.
* Code that can panic (out-of-range slice indexing, `rand.Intn` over an
  empty range) returns `Option`; `none` is a panic.
* Randomness is threaded explicitly as streams of numbers; `rand.Intn n`
  is modelled by reducing a stream value modulo `n` (any value in
  `[0, n)` is producible), and `rand.Float64() < MutationRate` decisions
  become explicit `Bool` streams.
* The external rasterizer (`draw`, backed by the draw2dimg dependency,
  which is not part of this repository) is a parameter of the
  triangle-variant operations.
* `sort.SliceStable` with `less(i, j) = Fitness i < Fitness j` is modelled
  by a stable ascending insertion sort by the `Fitness` key (the stable
  ascending order is unique, so any stable sort realizes it).
* `math.Sqrt` applied to the (nonnegative, exactly representable) `float64`
  image of the difference sum, truncated back to `int64`, is modelled by
  `Nat.sqrt`.
-/

namespace GA

/-- `image.Rectangle`, reduced to the only observations the program makes
of it: the width `Dx` and height `Dy`. -/
structure Rectangle where
  Dx : Nat
  Dy : Nat
deriving DecidableEq, Inhabited

/-- `image.RGBA`: the raw byte buffer plus stride and bounds. -/
structure RGBA where
  Pix : List Nat
  Stride : Nat
  Rect : Rectangle
deriving DecidableEq, Inhabited

/-- `func squareDifference(x, y uint8) uint64`: both operands are widened
to `uint64`, subtracted with wraparound, and the wrapped difference is
squared (again modulo `2 ^ 64`). -/
def squareDifference (x y : Nat) : Nat :=
  let d := (x % 2 ^ 64 + (2 ^ 64 - y % 2 ^ 64)) % 2 ^ 64
  d * d % 2 ^ 64

/-- The conversion `int64(u)` of a `uint64` value: reinterpretation of the
bit pattern into `[-2 ^ 63, 2 ^ 63)`. -/
def int64OfUInt64 (n : Nat) : Int :=
  if n % 2 ^ 64 < 2 ^ 63 then ((n % 2 ^ 64 : Nat) : Int)
  else ((n % 2 ^ 64 : Nat) : Int) - 2 ^ 64

/-- Wrapping `int64` addition result: normalization into
`[-2 ^ 63, 2 ^ 63)`. -/
def wrap64 (n : Int) : Int :=
  (n + 2 ^ 63) % 2 ^ 64 - 2 ^ 63

/-- The accumulation loop of `diff`:
`d += int64(squareDifference(a.Pix[i], b.Pix[i]))` for `i < len(a.Pix)`.
The `zip` truncates at `len(a.Pix)` whenever `b` is at least as long,
which is the only case `diff` lets reach this sum. -/
def diffSum (ps qs : List Nat) : Int :=
  (ps.zip qs).foldl (fun d xy => wrap64 (d + int64OfUInt64 (squareDifference xy.1 xy.2))) 0

/-- `func diff(a, b *image.RGBA) int64`: sums squared byte differences over
the indices of `a.Pix` and takes the integer square root of the total.
Indexing `b.Pix[i]` panics when `b` is shorter than `a` (`none`); the
`int64(math.Sqrt(float64(d)))` step is modelled by `Nat.sqrt` on the
nonnegative sum. -/
def diff (a b : RGBA) : Option Int :=
  if b.Pix.length < a.Pix.length then none
  else some ((Nat.sqrt (diffSum a.Pix b.Pix).toNat : Nat) : Int)

/-- Failure-propagating loop: runs `f` over a list collecting the results,
aborting at the first panic (`none`).  Used to model Go loops whose body
can panic. -/
def seqO (f : α → Option β) : List α → Option (List β)
  | [] => some []
  | a :: as => (f a).bind fun b => (seqO f as).map fun bs => b :: bs

/-- Insertion into a fitness-sorted list, before the first element of
greater-or-equal key — the placement that keeps equal-key elements in
their original relative order. -/
def orderedInsertF (fit : α → Int) (a : α) : List α → List α
  | [] => [a]
  | b :: l => if fit a ≤ fit b then a :: b :: l else b :: orderedInsertF fit a l

/-- Stable ascending sort by an `Int` key: the model of
`sort.SliceStable(population, less(i, j) = Fitness i < Fitness j)`. -/
def insertionSortF (fit : α → Int) : List α → List α
  | [] => []
  | a :: l => orderedInsertF fit a (insertionSortF fit l)

/-- The scanning loop of `getBest`: tracks the maximum fitness seen so far
(baseline `0`) and the index at which that maximum was first installed. -/
def getBestAux (fit : α → Int) : List α → Int → Nat → Nat → Nat
  | [], _, index, _ => index
  | g :: rest, best, index, i =>
    if best < fit g then getBestAux fit rest (fit g) i (i + 1)
    else getBestAux fit rest best index (i + 1)

/-- `func getBest(population []DNA) DNA`, generic over the genome type
(the two variants contain byte-identical copies): returns
`population[index]` for the tracked index, which panics (`none`) on an
empty population. -/
def getBestG (fit : α → Int) (dfl : α) (population : List α) : Option α :=
  match population with
  | [] => none
  | _ :: _ => some (population.getD (getBestAux fit population 0 0 0) dfl)

end GA

namespace Raw

/-- The raw-pixel variant's configuration constant `PopSize = 250`.
Go declares the run parameters as package-level `var`s set once; they are
also passed as explicit parameters below so that statements quantify over
the configuration. -/
def PopSize : Nat := 250

/-- The raw-pixel variant's configuration constant `PoolSize = 30`. -/
def PoolSize : Nat := 30

/-- `type DNA struct { Gene *image.RGBA; Fitness int64 }` (raw-pixel
variant: the buffer itself is the genome). -/
structure DNA where
  Gene : GA.RGBA
  Fitness : Int
deriving DecidableEq, Inhabited

/-- `func (d *DNA) calcFitness(target *image.RGBA)`: computes
`difference = diff(d.Gene, target)`, conditionally assigns `Fitness = 1`
when the difference is zero, and then unconditionally assigns
`Fitness = difference` (the second assignment is not guarded in the
source). -/
def calcFitness (d : DNA) (target : GA.RGBA) : Option DNA :=
  (GA.diff d.Gene target).map fun difference =>
    let d1 := if difference = 0 then { d with Fitness := 1 } else d
    { d1 with Fitness := difference }

/-- `func createRandomImageFrom(img *image.RGBA) *image.RGBA`: a buffer of
the same length, stride and bounds, filled with random bytes (`rand.Read`),
the byte stream given explicitly. -/
def createRandomImageFrom (rnd : Nat → Nat) (img : GA.RGBA) : GA.RGBA :=
  { Pix := (List.range img.Pix.length).map fun i => rnd i % 256
    Stride := img.Stride
    Rect := img.Rect }

/-- `func createDNA(target *image.RGBA) DNA`: a random image of the
target's dimensions, then `calcFitness` against the target. -/
def createDNA (rnd : Nat → Nat) (target : GA.RGBA) : Option DNA :=
  calcFitness { Gene := createRandomImageFrom rnd target, Fitness := 0 } target

/-- `func createPopulation(target *image.RGBA) []DNA`: `popSize`
independent random genomes (`popSize` is the `PopSize` configuration
constant). -/
def createPopulation (popSize : Nat) (rnds : Nat → Nat → Nat) (target : GA.RGBA) :
    Option (List DNA) :=
  GA.seqO (fun i => createDNA (rnds i) target) (List.range popSize)

/-- `func createPool(population []DNA, target *image.RGBA) []DNA`
(raw-pixel variant — note: no flat-fitness check).  The population slice is
stable-sorted in place ascending by fitness; the first `poolSize + 1`
genomes are taken (a panic — `none` — when the population is not longer
than `poolSize`); each of the first `poolSize` genomes is appended
`(top[poolSize].Fitness - top[i].Fitness) * 10` times.  The result pairs
the pool with the sorted population, making the in-place sort of the
caller's slice explicit. -/
def createPool (poolSize : Nat) (population : List DNA) :
    Option (List DNA × List DNA) :=
  let sorted := GA.insertionSortF (fun d => d.Fitness) population
  if population.length < poolSize + 1 then none
  else
    let top := sorted.take (poolSize + 1)
    let pool := (List.range poolSize).flatMap fun i =>
      List.replicate
        (((top.getD poolSize default).Fitness - (top.getD i default).Fitness) * 10).toNat
        (top.getD i default)
    some (pool, sorted)

/-- `func crossover(d1 DNA, d2 DNA) DNA` (raw-pixel variant), with the
split index `mid = rand.Intn(len(d1.Gene.Pix))` passed explicitly: a child
buffer of `d1`'s length where byte `i` comes from `d1` when `i > mid` and
from `d2` when `i <= mid`.  Reading `d2.Gene.Pix[i]` panics exactly when
`d2` is shorter than `d1` and no longer than `mid`. -/
def crossover (mid : Nat) (d1 d2 : DNA) : Option DNA :=
  if d2.Gene.Pix.length < d1.Gene.Pix.length ∧ d2.Gene.Pix.length ≤ mid then none
  else some
    { Gene :=
        { Pix := (List.range d1.Gene.Pix.length).map fun i =>
            if mid < i then d1.Gene.Pix.getD i 0 else d2.Gene.Pix.getD i 0
          Stride := d1.Gene.Stride
          Rect := d1.Gene.Rect }
      Fitness := 0 }

/-- `func (d *DNA) mutate()` (raw-pixel variant): each byte is replaced,
when its mutation decision fires, by `uint8(rand.Intn(255))` — a fresh
byte in `[0, 255)`.  The decision stream and the replacement byte stream
are explicit. -/
def mutate (mdec : Nat → Bool) (newByte : Nat → Nat) (d : DNA) : DNA :=
  let pix := d.Gene.Pix.enum.map fun xi =>
    if mdec xi.1 then newByte xi.1 % 255 else xi.2
  { d with Gene := { d.Gene with Pix := pix } }

/-- `func naturalSelection(pool []DNA, population []DNA, target *image.RGBA) []DNA`
(raw-pixel variant), body of the slot loop: draw two pool indices
(`rand.Intn(len(pool))` panics on an empty pool), fetch the parents
`a = pool[r1]` and `b = pool[r2]`, cross them over at
`mid = rand.Intn(len(d1.Gene.Pix))` (panics when the first parent's buffer
is empty), mutate the child and recompute its fitness. -/
def selectionStep (rnds : Nat → Nat × Nat) (mids : Nat → Nat)
    (muts : Nat → Nat → Bool) (news : Nat → Nat → Nat)
    (pool : List DNA) (target : GA.RGBA) (i : Nat) : Option DNA :=
  if pool.length = 0 then none
  else if (pool.getD ((rnds i).1 % pool.length) default).Gene.Pix.length = 0 then none
  else
    (crossover (mids i % (pool.getD ((rnds i).1 % pool.length) default).Gene.Pix.length)
        (pool.getD ((rnds i).1 % pool.length) default)
        (pool.getD ((rnds i).2 % pool.length) default)).bind fun child =>
      calcFitness (mutate (muts i) (news i) child) target

/-- The loop of `naturalSelection` (raw-pixel variant): one `selectionStep`
per population slot, collected into the next generation. -/
def naturalSelection (rnds : Nat → Nat × Nat) (mids : Nat → Nat)
    (muts : Nat → Nat → Bool) (news : Nat → Nat → Nat)
    (pool population : List DNA) (target : GA.RGBA) : Option (List DNA) :=
  GA.seqO (selectionStep rnds mids muts news pool target) (List.range population.length)

/-- `getBest` (raw-pixel variant). -/
def getBest (population : List DNA) : Option DNA :=
  GA.getBestG (fun d => d.Fitness) default population

end Raw

namespace Tri

/-- The triangle variant's configuration constant `PopSize = 100`. -/
def PopSize : Nat := 100

/-- The triangle variant's configuration constant `PoolSize = 20`. -/
def PoolSize : Nat := 20

/-- The triangle variant's configuration constant `NumTriangles = 150`. -/
def NumTriangles : Nat := 150

/-- `type Point struct { X, Y int }`. -/
structure Point where
  X : Int
  Y : Int
deriving DecidableEq, Inhabited

/-- The RGBA color stored in a triangle (`color.RGBA`, four byte
channels). -/
structure ColorRGBA where
  R : Nat
  G : Nat
  B : Nat
  A : Nat
deriving DecidableEq, Inhabited

/-- `type Triangle struct { P1, P2, P3 Point; Color color.Color }`. -/
structure Triangle where
  P1 : Point
  P2 : Point
  P3 : Point
  Color : ColorRGBA
deriving DecidableEq, Inhabited

/-- `type DNA struct { Gene *image.RGBA; Triangles []Triangle; Fitness int64 }`. -/
structure DNA where
  Gene : GA.RGBA
  Triangles : List Triangle
  Fitness : Int
deriving DecidableEq, Inhabited

/-- The type of the rasterizer
`func draw(w int, h int, triangles []Triangle) *image.RGBA`.  Its body
delegates to the external draw2dimg library, so the triangle-variant
operations are parameterized over it. -/
def DrawFn : Type :=
  Nat → Nat → List Triangle → GA.RGBA

/-- `func createTriangle(w int, h int) Triangle`, the random stream
explicit: the anchor `P1` uniform over the canvas (`rand.Intn(w)` /
`rand.Intn(h)`, both panicking — `none` — on a zero dimension), `P2` and
`P3` offset from `P1` by `rand.Intn(30) - 15` in each coordinate, and four
color channels `uint8(rand.Intn(255))`. -/
def createTriangle (rnd : Nat → Nat) (w h : Nat) : Option Triangle :=
  if w = 0 ∨ h = 0 then none
  else
    let p1 : Point := ⟨((rnd 0 % w : Nat) : Int), ((rnd 1 % h : Nat) : Int)⟩
    let p2 : Point := ⟨p1.X + (((rnd 2 % 30 : Nat) : Int) - 15),
                       p1.Y + (((rnd 3 % 30 : Nat) : Int) - 15)⟩
    let p3 : Point := ⟨p1.X + (((rnd 4 % 30 : Nat) : Int) - 15),
                       p1.Y + (((rnd 5 % 30 : Nat) : Int) - 15)⟩
    some { P1 := p1, P2 := p2, P3 := p3
           Color := { R := rnd 6 % 255, G := rnd 7 % 255, B := rnd 8 % 255, A := rnd 9 % 255 } }

/-- `func (d *DNA) calcFitness(target *image.RGBA)` — byte-identical to the
raw-pixel variant's copy: conditional `Fitness = 1` on zero difference,
then an unconditional `Fitness = difference`. -/
def calcFitness (d : DNA) (target : GA.RGBA) : Option DNA :=
  (GA.diff d.Gene target).map fun difference =>
    let d1 := if difference = 0 then { d with Fitness := 1 } else d
    { d1 with Fitness := difference }

/-- `func createDNA(target *image.RGBA) DNA`: `numTriangles` random
triangles over the target's dimensions, rendered by `draw`, then
`calcFitness`. -/
def createDNA (draw : DrawFn) (numTriangles : Nat) (rnds : Nat → Nat → Nat)
    (target : GA.RGBA) : Option DNA :=
  (GA.seqO (fun i => createTriangle (rnds i) target.Rect.Dx target.Rect.Dy)
      (List.range numTriangles)).bind fun triangles =>
    calcFitness
      { Gene := draw target.Rect.Dx target.Rect.Dy triangles
        Triangles := triangles
        Fitness := 0 } target

/-- `func createPopulation(target *image.RGBA) []DNA`: `popSize`
independent random genomes. -/
def createPopulation (draw : DrawFn) (popSize numTriangles : Nat)
    (rnds : Nat → Nat → Nat → Nat) (target : GA.RGBA) : Option (List DNA) :=
  GA.seqO (fun i => createDNA draw numTriangles (rnds i) target) (List.range popSize)

/-- `func createPool(population []DNA, target *image.RGBA) []DNA`
(triangle variant — this is the variant WITH the flat-fitness check).  The
population is stable-sorted in place ascending by fitness; the first
`poolSize + 1` genomes form `top` (panic — `none` — when the population is
not longer than `poolSize`); if `top[len(top)-1].Fitness - top[0].Fitness == 0`
the whole (sorted, aliased) population is returned as the pool; otherwise
each of the first `poolSize` genomes is appended
`top[poolSize].Fitness - top[i].Fitness` times (no scaling).  The result
pairs the pool with the sorted population. -/
def createPool (poolSize : Nat) (population : List DNA) :
    Option (List DNA × List DNA) :=
  let sorted := GA.insertionSortF (fun d => d.Fitness) population
  if population.length < poolSize + 1 then none
  else
    let top := sorted.take (poolSize + 1)
    if (top.getD (top.length - 1) default).Fitness - (top.getD 0 default).Fitness = 0 then
      some (sorted, sorted)
    else
      let pool := (List.range poolSize).flatMap fun i =>
        List.replicate
          ((top.getD poolSize default).Fitness - (top.getD i default).Fitness).toNat
          (top.getD i default)
      some (pool, sorted)

/-- `func crossover(d1 DNA, d2 DNA) DNA` (triangle variant), with the split
index `mid = rand.Intn(len(d1.Triangles))` passed explicitly: a child
triangle list of `d1`'s length where triangle `i` comes from `d1` when
`i > mid` and from `d2` when `i <= mid`, then a fresh render of the
assembled list at `d1`'s dimensions.  Reading `d2.Triangles[i]` panics
exactly when `d2` is shorter than `d1` and no longer than `mid`. -/
def crossover (draw : DrawFn) (mid : Nat) (d1 d2 : DNA) : Option DNA :=
  if d2.Triangles.length < d1.Triangles.length ∧ d2.Triangles.length ≤ mid then none
  else
    let tris := (List.range d1.Triangles.length).map fun i =>
      if mid < i then d1.Triangles.getD i default else d2.Triangles.getD i default
    some
      { Gene := draw d1.Gene.Rect.Dx d1.Gene.Rect.Dy tris
        Triangles := tris
        Fitness := 0 }

/-- `func (d *DNA) mutate()` (triangle variant): each triangle is replaced,
when its mutation decision fires, by a fresh `createTriangle` over the
genome's own dimensions (panicking on a zero dimension), and the full
buffer is re-rendered afterwards. -/
def mutate (draw : DrawFn) (mdec : Nat → Bool) (rnds : Nat → Nat → Nat) (d : DNA) :
    Option DNA :=
  (GA.seqO (fun it =>
      if mdec it.1 then createTriangle (rnds it.1) d.Gene.Rect.Dx d.Gene.Rect.Dy
      else some it.2)
    d.Triangles.enum).map fun tris =>
    { d with Triangles := tris, Gene := draw d.Gene.Rect.Dx d.Gene.Rect.Dy tris }

/-- `func naturalSelection(pool []DNA, population []DNA, target *image.RGBA) []DNA`
(triangle variant), body of the slot loop: draw two pool indices
(`rand.Intn(len(pool))` panics on an empty pool), fetch the parents
`a = pool[r1]` and `b = pool[r2]`, cross them over at
`mid = rand.Intn(len(d1.Triangles))` (panics when the first parent's
triangle list is empty), mutate the child and recompute its fitness. -/
def selectionStep (draw : DrawFn) (rnds : Nat → Nat × Nat) (mids : Nat → Nat)
    (muts : Nat → Nat → Bool) (triRnds : Nat → Nat → Nat → Nat)
    (pool : List DNA) (target : GA.RGBA) (i : Nat) : Option DNA :=
  if pool.length = 0 then none
  else if (pool.getD ((rnds i).1 % pool.length) default).Triangles.length = 0 then none
  else
    (crossover draw (mids i % (pool.getD ((rnds i).1 % pool.length) default).Triangles.length)
        (pool.getD ((rnds i).1 % pool.length) default)
        (pool.getD ((rnds i).2 % pool.length) default)).bind fun child =>
      (mutate draw (muts i) (triRnds i) child).bind fun child2 =>
        calcFitness child2 target

/-- The loop of `naturalSelection` (triangle variant): one `selectionStep`
per population slot, collected into the next generation. -/
def naturalSelection (draw : DrawFn) (rnds : Nat → Nat × Nat) (mids : Nat → Nat)
    (muts : Nat → Nat → Bool) (triRnds : Nat → Nat → Nat → Nat)
    (pool population : List DNA) (target : GA.RGBA) : Option (List DNA) :=
  GA.seqO (selectionStep draw rnds mids muts triRnds pool target)
    (List.range population.length)

/-- `getBest` (triangle variant). -/
def getBest (population : List DNA) : Option DNA :=
  GA.getBestG (fun d => d.Fitness) default population

end Tri

/-! ### Concrete example data (used to instantiate the theorems) -/

/-- A 1-by-1 example RGBA buffer (4 bytes, all zero). -/
def exT : GA.RGBA := ⟨[0, 0, 0, 0], 4, ⟨1, 1⟩⟩

/-- A degenerate example triangle. -/
def exTriangle : Tri.Triangle := ⟨⟨0, 0⟩, ⟨0, 0⟩, ⟨0, 0⟩, ⟨0, 0, 0, 0⟩⟩

/-- An example rasterizer: a blank buffer of the requested dimensions. -/
def exDraw : Tri.DrawFn := fun w h _ => ⟨List.replicate (w * h * 4) 0, w * 4, ⟨w, h⟩⟩

/-- An example triangle genome over `exT`, fitness `3`. -/
def exTDNA : Tri.DNA := ⟨exT, [exTriangle], 3⟩

/-- An example triangle genome with fitness `6`. -/
def exTDNA6 : Tri.DNA := ⟨⟨[5], 4, ⟨1, 1⟩⟩, [], 6⟩

/-- A second, distinct example triangle. -/
def exTriangle2 : Tri.Triangle := ⟨⟨1, 1⟩, ⟨2, 2⟩, ⟨3, 3⟩, ⟨9, 9, 9, 9⟩⟩

/-- A second example triangle genome over `exT`, fitness `4`. -/
def exTDNA2 : Tri.DNA := ⟨exT, [exTriangle2], 4⟩

/-- Example raw-pixel genomes. -/
def exRDNA0 : Raw.DNA := ⟨⟨[0, 0, 0, 0], 4, ⟨1, 1⟩⟩, 7⟩

/-- A second equal-fitness raw-pixel genome. -/
def exRDNA8 : Raw.DNA := ⟨⟨[8, 8, 8, 8], 4, ⟨1, 1⟩⟩, 7⟩

/-- Raw-pixel genomes of fitness 3, 9 and 9 (for the best-tracker). -/
def exRDNA3 : Raw.DNA := ⟨⟨[0], 4, ⟨1, 1⟩⟩, 3⟩

/-- Fitness-9 genome, the first maximum. -/
def exRDNA9 : Raw.DNA := ⟨⟨[1], 4, ⟨1, 1⟩⟩, 9⟩

/-- Fitness-9 genome, a later tie. -/
def exRDNA9b : Raw.DNA := ⟨⟨[2], 4, ⟨1, 1⟩⟩, 9⟩


/-! ### List helpers -/

namespace GA

theorem getD_eq_getElem (l : List α) (d : α) {n : Nat} (h : n < l.length) :
    l.getD n d = l[n] := by
  simp [List.getD_eq_getElem?_getD, List.getElem?_eq_getElem h]

theorem getD_mem (l : List α) (d : α) {n : Nat} (h : n < l.length) :
    l.getD n d ∈ l := by
  rw [getD_eq_getElem l d h]
  exact List.getElem_mem h

theorem getD_map_range (f : Nat → α) {n i : Nat} (h : i < n) (d : α) :
    ((List.range n).map f).getD i d = f i := by
  rw [getD_eq_getElem _ d (by simpa using h)]
  simp

theorem map_getD_range (l : List α) (d : α) :
    (List.range l.length).map (fun i => l.getD i d) = l := by
  apply List.ext_getElem (by simp)
  intro i h1 h2
  simp [List.getD_eq_getElem?_getD, List.getElem?_eq_getElem h2]

theorem getD_take (l : List α) (d : α) {n i : Nat} (h : i < n) :
    (l.take n).getD i d = l.getD i d := by
  simp [List.getD_eq_getElem?_getD, List.getElem?_take_of_lt h]

theorem getD_mem_take (l : List α) (d : α) {K i : Nat} (hi : i < K) (hK : K ≤ l.length) :
    l.getD i d ∈ l.take K := by
  rw [← getD_take l d hi]
  exact getD_mem _ d (by simp; omega)

theorem zip_take_length (l : List α) : ∀ ys : List β, l.zip (ys.take l.length) = l.zip ys := by
  induction l with
  | nil => intro ys; simp
  | cons a as ih =>
    intro ys
    cases ys with
    | nil => simp
    | cons b bs => simpa using ih bs

/-! ### `seqO` -/

theorem seqO_total (f : α → Option β) (P : β → Prop) :
    ∀ l : List α, (∀ a ∈ l, ∃ b, f a = some b ∧ P b) →
      ∃ bs, seqO f l = some bs ∧ bs.length = l.length ∧ ∀ b ∈ bs, P b := by
  intro l
  induction l with
  | nil => exact fun _ => ⟨[], rfl, rfl, by simp⟩
  | cons a as ih =>
    intro h
    obtain ⟨b, hb, hPb⟩ := h a (by simp)
    obtain ⟨bs, hbs, hlen, hP⟩ := ih fun x hx => h x (by simp [hx])
    refine ⟨b :: bs, ?_, by simp [hlen], ?_⟩
    · simp [seqO, hb, hbs]
    · intro c hc
      rcases List.mem_cons.mp hc with rfl | hc
      · exact hPb
      · exact hP c hc

/-! ### The stable sort -/

theorem perm_orderedInsertF (fit : α → Int) (a : α) :
    ∀ l : List α, List.Perm (orderedInsertF fit a l) (a :: l) := by
  intro l
  induction l with
  | nil => simp [orderedInsertF]
  | cons b bs ih =>
    by_cases h : fit a ≤ fit b
    · simp [orderedInsertF, h]
    · simp only [orderedInsertF, if_neg h]
      exact (ih.cons b).trans (List.Perm.swap a b bs)

theorem mem_orderedInsertF (fit : α → Int) (a x : α) (l : List α) :
    x ∈ orderedInsertF fit a l ↔ x = a ∨ x ∈ l := by
  rw [(perm_orderedInsertF fit a l).mem_iff]
  simp

theorem sorted_orderedInsertF (fit : α → Int) (a : α) :
    ∀ l : List α, l.Pairwise (fun x y => fit x ≤ fit y) →
      (orderedInsertF fit a l).Pairwise (fun x y => fit x ≤ fit y) := by
  intro l
  induction l with
  | nil => simp [orderedInsertF]
  | cons b bs ih =>
    intro hs
    rcases List.pairwise_cons.mp hs with ⟨hb, hbs⟩
    by_cases h : fit a ≤ fit b
    · rw [orderedInsertF, if_pos h]
      refine List.pairwise_cons.mpr ⟨?_, hs⟩
      intro x hx
      rcases List.mem_cons.mp hx with rfl | hx
      · exact h
      · exact le_trans h (hb x hx)
    · rw [orderedInsertF, if_neg h]
      refine List.pairwise_cons.mpr ⟨?_, ih hbs⟩
      intro x hx
      rcases (mem_orderedInsertF fit a x bs).mp hx with rfl | hx
      · omega
      · exact hb x hx

theorem perm_insertionSortF (fit : α → Int) :
    ∀ l : List α, List.Perm (insertionSortF fit l) l := by
  intro l
  induction l with
  | nil => rfl
  | cons a as ih =>
    exact (perm_orderedInsertF fit a (insertionSortF fit as)).trans (ih.cons a)

theorem sorted_insertionSortF (fit : α → Int) :
    ∀ l : List α, (insertionSortF fit l).Pairwise (fun x y => fit x ≤ fit y) := by
  intro l
  induction l with
  | nil => simp [insertionSortF]
  | cons a as ih => exact sorted_orderedInsertF fit a _ ih

theorem filter_orderedInsertF (fit : α → Int) (v : Int) (a : α) :
    ∀ l : List α,
      (orderedInsertF fit a l).filter (fun g => decide (fit g = v)) =
        if fit a = v then a :: l.filter (fun g => decide (fit g = v))
        else l.filter (fun g => decide (fit g = v)) := by
  intro l
  induction l with
  | nil =>
    by_cases h : fit a = v <;> simp [orderedInsertF, List.filter, h]
  | cons b bs ih =>
    by_cases hab : fit a ≤ fit b
    · rw [orderedInsertF, if_pos hab]
      by_cases h : fit a = v <;> simp [List.filter_cons, h]
    · rw [orderedInsertF, if_neg hab]
      by_cases hbv : fit b = v
      · have hav : ¬ fit a = v := by omega
        simp [List.filter_cons, hbv, ih, hav]
      · simp [List.filter_cons, hbv, ih]

theorem filter_insertionSortF (fit : α → Int) (v : Int) :
    ∀ l : List α,
      (insertionSortF fit l).filter (fun g => decide (fit g = v)) =
        l.filter (fun g => decide (fit g = v)) := by
  intro l
  induction l with
  | nil => rfl
  | cons a as ih =>
    rw [insertionSortF, filter_orderedInsertF, ih]
    by_cases h : fit a = v <;> simp [List.filter_cons, h]

theorem sorted_getD_le (fit : α → Int) (l : List α) (d : α)
    (hs : l.Pairwise (fun x y => fit x ≤ fit y)) {i j : Nat}
    (hij : i ≤ j) (hj : j < l.length) :
    fit (l.getD i d) ≤ fit (l.getD j d) := by
  rcases Nat.lt_or_ge i j with h | h
  · rw [getD_eq_getElem l d (lt_of_le_of_lt hij hj), getD_eq_getElem l d hj]
    exact List.pairwise_iff_getElem.mp hs i j _ _ h
  · have : i = j := le_antisymm hij h
    subst this
    exact le_refl _

end GA

/-! ### Exactness of the wrapped `uint64` arithmetic -/

namespace GA

theorem squareDifference_eq_natAbs_sq (x y : Nat) (hx : x < 256) (hy : y < 256) :
    squareDifference x y = ((x : Int) - y).natAbs ^ 2 := by
  unfold squareDifference
  rcases Nat.lt_or_ge y x with h | h
  case inl =>
    have hd : (x % 2 ^ 64 + (2 ^ 64 - y % 2 ^ 64)) % 2 ^ 64 = x - y := by omega
    simp only [hd]
    have h2 : (x - y) * (x - y) < 2 ^ 64 := by
      have := Nat.mul_le_mul (show x - y ≤ 255 by omega) (show x - y ≤ 255 by omega)
      omega
    rw [Nat.mod_eq_of_lt h2]
    have h3 : ((x : Int) - y).natAbs = x - y := by omega
    rw [h3, pow_two]
  case inr =>
    rcases Nat.eq_or_lt_of_le h with heq | h
    case inl =>
      subst heq
      have hd : (x % 2 ^ 64 + (2 ^ 64 - x % 2 ^ 64)) % 2 ^ 64 = 0 := by omega
      simp only [hd]
      simp
    case inr =>
      have hd : (x % 2 ^ 64 + (2 ^ 64 - y % 2 ^ 64)) % 2 ^ 64 = 2 ^ 64 - (y - x) := by omega
      simp only [hd]
      have hexp : (2 ^ 64 - (y - x)) * (2 ^ 64 - (y - x))
          = 2 ^ 64 * (2 ^ 64 - 2 * (y - x)) + (y - x) * (y - x) := by
        zify [show y - x ≤ 2 ^ 64 by omega, show 2 * (y - x) ≤ 2 ^ 64 by omega]
        ring
      rw [hexp, Nat.mul_add_mod]
      have h2 : (y - x) * (y - x) < 2 ^ 64 := by
        have := Nat.mul_le_mul (show y - x ≤ 255 by omega) (show y - x ≤ 255 by omega)
        omega
      rw [Nat.mod_eq_of_lt h2]
      have h3 : ((x : Int) - y).natAbs = y - x := by omega
      rw [h3, pow_two]

theorem squareDifference_le (x y : Nat) (hx : x < 256) (hy : y < 256) :
    squareDifference x y ≤ 65025 := by
  rw [squareDifference_eq_natAbs_sq x y hx hy]
  have h : ((x : Int) - y).natAbs ≤ 255 := by omega
  calc ((x : Int) - y).natAbs ^ 2 ≤ 255 ^ 2 := Nat.pow_le_pow_left h 2
    _ = 65025 := by norm_num

theorem int64OfUInt64_squareDifference (x y : Nat) (hx : x < 256) (hy : y < 256) :
    int64OfUInt64 (squareDifference x y) = ((x : Int) - y) ^ 2 := by
  have hle := squareDifference_le x y hx hy
  unfold int64OfUInt64
  rw [if_pos (by omega)]
  rw [Nat.mod_eq_of_lt (by omega)]
  rw [squareDifference_eq_natAbs_sq x y hx hy]
  exact_mod_cast Int.natAbs_sq ((x : Int) - y)

theorem wrap64_eq_of_bounds (n : Int) (h0 : 0 ≤ n) (h1 : n < 2 ^ 63) : wrap64 n = n := by
  unfold wrap64
  omega

theorem diffSum_foldl_exact :
    ∀ (l : List (Nat × Nat)) (acc : Int),
      (∀ p ∈ l, p.1 < 256 ∧ p.2 < 256) → 0 ≤ acc →
      acc + 65025 * l.length < 2 ^ 63 →
      l.foldl (fun d xy => wrap64 (d + int64OfUInt64 (squareDifference xy.1 xy.2))) acc
        = acc + (l.map fun xy => ((xy.1 : Int) - xy.2) ^ 2).sum := by
  intro l
  induction l with
  | nil => intro acc _ _ _; simp
  | cons p ps ih =>
    intro acc hb hacc hbound
    obtain ⟨hp1, hp2⟩ := hb p (by simp)
    have hv : int64OfUInt64 (squareDifference p.1 p.2) = ((p.1 : Int) - p.2) ^ 2 :=
      int64OfUInt64_squareDifference p.1 p.2 hp1 hp2
    have hv0 : 0 ≤ ((p.1 : Int) - p.2) ^ 2 := sq_nonneg _
    have hvle : ((p.1 : Int) - p.2) ^ 2 ≤ 65025 := by
      have h255 : ((p.1 : Int) - p.2).natAbs ≤ 255 := by omega
      have := Int.natAbs_sq ((p.1 : Int) - p.2)
      have hsq : (((p.1 : Int) - p.2).natAbs : Int) ^ 2 ≤ 255 ^ 2 := by
        have : (((p.1 : Int) - p.2).natAbs : Int) ≤ 255 := by exact_mod_cast h255
        nlinarith [Int.natCast_nonneg ((p.1 : Int) - p.2).natAbs]
      calc ((p.1 : Int) - p.2) ^ 2 = (((p.1 : Int) - p.2).natAbs : Int) ^ 2 := by
            exact_mod_cast (Int.natAbs_sq ((p.1 : Int) - p.2)).symm
        _ ≤ 255 ^ 2 := hsq
        _ = 65025 := by norm_num
    have hlen : (ps.length : Int) + 1 = ((p :: ps).length : Int) := by simp
    have hwrap : wrap64 (acc + int64OfUInt64 (squareDifference p.1 p.2))
        = acc + ((p.1 : Int) - p.2) ^ 2 := by
      rw [hv]
      refine wrap64_eq_of_bounds _ (by omega) ?_
      have : ((p :: ps).length : Int) = (ps.length : Int) + 1 := by simp
      rw [this] at hbound
      omega
    rw [List.foldl_cons, hwrap, ih]
    · simp [add_assoc]
    · intro q hq; exact hb q (by simp [hq])
    · omega
    · have : ((p :: ps).length : Int) = (ps.length : Int) + 1 := by simp
      rw [this] at hbound
      omega

theorem diffSum_exact (ps qs : List Nat)
    (hp : ∀ b ∈ ps, b < 256) (hq : ∀ b ∈ qs, b < 256) (hlen : ps.length ≤ 2 ^ 47) :
    diffSum ps qs = ((ps.zip qs).map fun xy => ((xy.1 : Int) - xy.2) ^ 2).sum := by
  unfold diffSum
  rw [diffSum_foldl_exact]
  · simp
  · rintro ⟨a, b⟩ hab
    obtain ⟨h1, h2⟩ := List.of_mem_zip hab
    exact ⟨hp a h1, hq b h2⟩
  · exact le_refl 0
  · have h1 : (ps.zip qs).length ≤ ps.length := by
      rw [List.length_zip]
      exact Nat.min_le_left _ _
    have h2 : (ps.zip qs).length ≤ 2 ^ 47 := le_trans h1 hlen
    have : ((ps.zip qs).length : Int) ≤ 2 ^ 47 := by exact_mod_cast h2
    omega

end GA

/-! ### The `getBest` scan -/

namespace GA

theorem getBestAux_spec (fit : α → Int) (dfl : α) :
    ∀ (l : List α) (best : Int) (index i : Nat),
      (getBestAux fit l best index i = index ∧ ∀ g ∈ l, fit g ≤ best) ∨
      (∃ j, j < l.length ∧ getBestAux fit l best index i = i + j ∧
        best < fit (l.getD j dfl) ∧
        (∀ m, m < l.length → fit (l.getD m dfl) ≤ fit (l.getD j dfl)) ∧
        (∀ m, m < j → fit (l.getD m dfl) < fit (l.getD j dfl))) := by
  intro l
  induction l with
  | nil => intro best index i; left; exact ⟨rfl, by simp⟩
  | cons g rest ih =>
    intro best index i
    simp only [getBestAux]
    by_cases h : best < fit g
    · rw [if_pos h]
      rcases ih (fit g) i (i + 1) with ⟨heq, hle⟩ | ⟨j, hj, heq, hgt, hmax, hfirst⟩
      · right
        refine ⟨0, by simp, by simpa using heq, by simpa using h, ?_, ?_⟩
        · intro m hm
          cases m with
          | zero => exact le_refl _
          | succ m =>
            simp only [List.getD_cons_succ, List.getD_cons_zero]
            exact hle _ (getD_mem rest dfl (by simpa using hm))
        · intro m hm
          omega
      · right
        refine ⟨j + 1, by simpa using hj, by rw [heq]; omega, ?_, ?_, ?_⟩
        · simpa using lt_trans h hgt
        · intro m hm
          cases m with
          | zero => simpa using le_of_lt hgt
          | succ m =>
            simp only [List.getD_cons_succ]
            exact hmax m (by simpa using hm)
        · intro m hm
          cases m with
          | zero => simpa using hgt
          | succ m =>
            simp only [List.getD_cons_succ]
            exact hfirst m (by omega)
    · rw [if_neg h]
      rcases ih best index (i + 1) with ⟨heq, hle⟩ | ⟨j, hj, heq, hgt, hmax, hfirst⟩
      · left
        refine ⟨heq, ?_⟩
        intro x hx
        rcases List.mem_cons.mp hx with rfl | hx
        · omega
        · exact hle x hx
      · right
        refine ⟨j + 1, by simpa using hj, by rw [heq]; omega, ?_, ?_, ?_⟩
        · simpa using hgt
        · intro m hm
          cases m with
          | zero =>
            simp only [List.getD_cons_succ, List.getD_cons_zero]
            omega
          | succ m =>
            simp only [List.getD_cons_succ]
            exact hmax m (by simpa using hm)
        · intro m hm
          cases m with
          | zero =>
            simp only [List.getD_cons_succ, List.getD_cons_zero]
            omega
          | succ m =>
            simp only [List.getD_cons_succ]
            exact hfirst m (by omega)

theorem getBestG_spec (fit : α → Int) (dfl : α) (l : List α)
    (hne : l ≠ []) (hnn : ∀ g ∈ l, 0 ≤ fit g) :
    ∃ k, k < l.length ∧ getBestG fit dfl l = some (l.getD k dfl) ∧
      (∀ m, m < l.length → fit (l.getD m dfl) ≤ fit (l.getD k dfl)) ∧
      (∀ m, m < k → fit (l.getD m dfl) < fit (l.getD k dfl)) := by
  have hlen : 0 < l.length := List.length_pos.mpr hne
  have hout : getBestG fit dfl l = some (l.getD (getBestAux fit l 0 0 0) dfl) := by
    cases l with
    | nil => simp at hlen
    | cons a as => rfl
  rcases getBestAux_spec fit dfl l 0 0 0 with ⟨heq, hle⟩ | ⟨j, hj, heq, _hgt, hmax, hfirst⟩
  · refine ⟨0, hlen, by rw [hout, heq], ?_, by omega⟩
    intro m hm
    have h1 := hle _ (getD_mem l dfl hm)
    have h2 := hnn _ (getD_mem l dfl hlen)
    have h3 := hle _ (getD_mem l dfl hlen)
    omega
  · exact ⟨j, hj, by rw [hout, heq, Nat.zero_add], hmax, hfirst⟩

end GA

/-! ### Pool construction -/

namespace GA

theorem sum_toNat_eq (w w2 : Nat → Int) :
    ∀ l : List Nat, (∀ i ∈ l, 0 ≤ w i ∧ w i = w2 i) →
      (((l.map fun i => (w i).toNat).sum : Nat) : Int) = (l.map w2).sum := by
  intro l
  induction l with
  | nil => intro _; simp
  | cons a as ih =>
    intro h
    obtain ⟨h0, heq⟩ := h a (by simp)
    have hrec := ih fun i hi => h i (by simp [hi])
    simp only [List.map_cons, List.sum_cons]
    rw [Nat.cast_add, Int.toNat_of_nonneg h0, heq, hrec]

theorem diff_some (a b : RGBA) (h : ¬ b.Pix.length < a.Pix.length) :
    diff a b = some ((Nat.sqrt (diffSum a.Pix b.Pix).toNat : Nat) : Int) := by
  unfold diff
  rw [if_neg h]

end GA

namespace Raw

theorem calcFitness_eqR (d : DNA) (target : GA.RGBA) (v : Int)
    (hv : GA.diff d.Gene target = some v) :
    calcFitness d target = some { d with Fitness := v } := by
  unfold calcFitness
  rw [hv]
  by_cases hz : v = 0 <;> simp [hz]

theorem createPool_specR (K : Nat) (pop : List DNA) (hK : K < pop.length) :
    ∃ pool,
      createPool K pop = some (pool, GA.insertionSortF (fun d => d.Fitness) pop) ∧
      (pool.length : Int) = ((List.range K).map fun i =>
          (((GA.insertionSortF (fun d => d.Fitness) pop).getD K default).Fitness
            - ((GA.insertionSortF (fun d => d.Fitness) pop).getD i default).Fitness) * 10).sum ∧
      ∀ g ∈ pool, g ∈ (GA.insertionSortF (fun d => d.Fitness) pop).take K := by
  have hSlen : (GA.insertionSortF (fun d : DNA => d.Fitness) pop).length = pop.length :=
    (GA.perm_insertionSortF _ pop).length_eq
  have hsorted := GA.sorted_insertionSortF (fun d : DNA => d.Fitness) pop
  have htop : ∀ i, i < K + 1 →
      ((GA.insertionSortF (fun d : DNA => d.Fitness) pop).take (K + 1)).getD i default
        = (GA.insertionSortF (fun d : DNA => d.Fitness) pop).getD i default :=
    fun i hi => GA.getD_take _ default hi
  simp only [createPool]
  rw [if_neg (show ¬ pop.length < K + 1 by omega)]
  refine ⟨_, rfl, ?_, ?_⟩
  · simp only [List.length_flatMap, Function.comp_def, List.length_replicate]
    apply GA.sum_toNat_eq
    intro i hi
    have hiK : i < K := by simpa using hi
    rw [htop K (by omega), htop i (by omega)]
    constructor
    · have hle : ((GA.insertionSortF (fun d : DNA => d.Fitness) pop).getD i default).Fitness
          ≤ ((GA.insertionSortF (fun d : DNA => d.Fitness) pop).getD K default).Fitness :=
        GA.sorted_getD_le (fun d : DNA => d.Fitness)
          (GA.insertionSortF (fun d : DNA => d.Fitness) pop) default hsorted
          (le_of_lt hiK) (by omega)
      omega
    · rfl
  · intro g hg
    simp only [List.mem_flatMap, List.mem_replicate, List.mem_range] at hg
    obtain ⟨i, hiK, _, rfl⟩ := hg
    rw [htop i (by omega)]
    exact GA.getD_mem_take _ default hiK (by omega)

theorem createPool_flat (K : Nat) (pop : List DNA) (hK : K < pop.length)
    (hflat : ((GA.insertionSortF (fun d : DNA => d.Fitness) pop).getD K default).Fitness
      = ((GA.insertionSortF (fun d : DNA => d.Fitness) pop).getD 0 default).Fitness) :
    createPool K pop = some ([], GA.insertionSortF (fun d : DNA => d.Fitness) pop) := by
  have hSlen : (GA.insertionSortF (fun d : DNA => d.Fitness) pop).length = pop.length :=
    (GA.perm_insertionSortF _ pop).length_eq
  have hsorted := GA.sorted_insertionSortF (fun d : DNA => d.Fitness) pop
  obtain ⟨pool, hcp, hlen, _⟩ := createPool_specR K pop hK
  have hzero : ∀ i, i < K →
      (((GA.insertionSortF (fun d : DNA => d.Fitness) pop).getD K default).Fitness
        - ((GA.insertionSortF (fun d : DNA => d.Fitness) pop).getD i default).Fitness) * 10 = 0 := by
    intro i hi
    have h1 : ((GA.insertionSortF (fun d : DNA => d.Fitness) pop).getD 0 default).Fitness
        ≤ ((GA.insertionSortF (fun d : DNA => d.Fitness) pop).getD i default).Fitness :=
      GA.sorted_getD_le (fun d : DNA => d.Fitness) _ default hsorted (Nat.zero_le i) (by omega)
    have h2 : ((GA.insertionSortF (fun d : DNA => d.Fitness) pop).getD i default).Fitness
        ≤ ((GA.insertionSortF (fun d : DNA => d.Fitness) pop).getD K default).Fitness :=
      GA.sorted_getD_le (fun d : DNA => d.Fitness) _ default hsorted (le_of_lt hi) (by omega)
    omega
  have hsum : ((List.range K).map fun i =>
      (((GA.insertionSortF (fun d : DNA => d.Fitness) pop).getD K default).Fitness
        - ((GA.insertionSortF (fun d : DNA => d.Fitness) pop).getD i default).Fitness) * 10).sum
      = 0 := by
    apply List.sum_eq_zero
    intro x hx
    simp only [List.mem_map, List.mem_range] at hx
    obtain ⟨i, hi, rfl⟩ := hx
    exact hzero i hi
  have hlen0 : pool.length = 0 := by
    rw [hsum] at hlen
    exact_mod_cast hlen
  rw [List.length_eq_zero.mp hlen0] at hcp
  exact hcp

theorem crossover_someR (mid : Nat) (d1 d2 : DNA)
    (h : d1.Gene.Pix.length ≤ d2.Gene.Pix.length) :
    ∃ child, crossover mid d1 d2 = some child ∧
      child.Gene.Pix.length = d1.Gene.Pix.length := by
  unfold crossover
  rw [if_neg (by omega)]
  exact ⟨_, rfl, by simp⟩

theorem mutate_len (mdec : Nat → Bool) (news : Nat → Nat) (d : DNA) :
    (mutate mdec news d).Gene.Pix.length = d.Gene.Pix.length := by
  simp [mutate]

theorem selectionStep_totalR (rnds : Nat → Nat × Nat) (mids : Nat → Nat)
    (muts : Nat → Nat → Bool) (news : Nat → Nat → Nat)
    (pool : List DNA) (target : GA.RGBA) (i : Nat)
    (hpool : pool ≠ []) (L : Nat) (hL : 0 < L)
    (hlen : ∀ g ∈ pool, g.Gene.Pix.length = L) (hLt : L ≤ target.Pix.length) :
    ∃ d2, selectionStep rnds mids muts news pool target i = some d2 ∧ 0 ≤ d2.Fitness := by
  have hplen : pool.length ≠ 0 := fun h => hpool (List.length_eq_zero.mp h)
  have hpos : 0 < pool.length := Nat.pos_of_ne_zero hplen
  have ha : pool.getD ((rnds i).1 % pool.length) default ∈ pool :=
    GA.getD_mem _ _ (Nat.mod_lt _ hpos)
  have hb : pool.getD ((rnds i).2 % pool.length) default ∈ pool :=
    GA.getD_mem _ _ (Nat.mod_lt _ hpos)
  have haL := hlen _ ha
  have hbL := hlen _ hb
  unfold selectionStep
  rw [if_neg hplen, if_neg (by rw [haL]; omega)]
  obtain ⟨child, hchild, hclen⟩ := crossover_someR
    (mids i % (pool.getD ((rnds i).1 % pool.length) default).Gene.Pix.length)
    (pool.getD ((rnds i).1 % pool.length) default)
    (pool.getD ((rnds i).2 % pool.length) default) (by rw [haL, hbL])
  rw [hchild]
  have hmlen := mutate_len (muts i) (news i) child
  refine ⟨_, calcFitness_eqR _ _ _ (GA.diff_some _ _ (by rw [hmlen, hclen, haL]; omega)), ?_⟩
  exact Int.natCast_nonneg _

theorem naturalSelection_totalR (rnds : Nat → Nat × Nat) (mids : Nat → Nat)
    (muts : Nat → Nat → Bool) (news : Nat → Nat → Nat)
    (pool population : List DNA) (target : GA.RGBA)
    (hpool : pool ≠ []) (L : Nat) (hL : 0 < L)
    (hlen : ∀ g ∈ pool, g.Gene.Pix.length = L) (hLt : L ≤ target.Pix.length) :
    ∃ next, naturalSelection rnds mids muts news pool population target = some next ∧
      next.length = population.length ∧ ∀ g ∈ next, 0 ≤ g.Fitness := by
  obtain ⟨next, h1, h2, h3⟩ := GA.seqO_total (selectionStep rnds mids muts news pool target)
    (fun g => 0 ≤ g.Fitness) (List.range population.length)
    (fun i _ => selectionStep_totalR rnds mids muts news pool target i hpool L hL hlen hLt)
  exact ⟨next, h1, by simpa using h2, h3⟩

theorem createDNA_totalR (rnd : Nat → Nat) (target : GA.RGBA) :
    ∃ d, createDNA rnd target = some d := by
  unfold createDNA
  exact ⟨_, calcFitness_eqR _ _ _ (GA.diff_some _ _ (by simp [createRandomImageFrom]))⟩

theorem createPopulation_totalR (popSize : Nat) (rnds : Nat → Nat → Nat) (target : GA.RGBA) :
    ∃ pop, createPopulation popSize rnds target = some pop ∧ pop.length = popSize := by
  obtain ⟨pop, h1, h2, _⟩ := GA.seqO_total (fun i => createDNA (rnds i) target) (fun _ => True)
    (List.range popSize) (fun i _ => by
      obtain ⟨d, hd⟩ := createDNA_totalR (rnds i) target
      exact ⟨d, hd, trivial⟩)
  exact ⟨pop, h1, by simpa using h2⟩

end Raw

namespace Tri

theorem calcFitness_eqT (d : DNA) (target : GA.RGBA) (v : Int)
    (hv : GA.diff d.Gene target = some v) :
    calcFitness d target = some { d with Fitness := v } := by
  unfold calcFitness
  rw [hv]
  by_cases hz : v = 0 <;> simp [hz]

theorem createTriangle_some (rnd : Nat → Nat) (w h : Nat) (hw : w ≠ 0) (hh : h ≠ 0) :
    ∃ t, createTriangle rnd w h = some t := by
  unfold createTriangle
  rw [if_neg (by simp [hw, hh])]
  exact ⟨_, rfl⟩

theorem crossover_someT (draw : DrawFn) (mid : Nat) (d1 d2 : DNA)
    (h : d1.Triangles.length ≤ d2.Triangles.length) :
    ∃ child, crossover draw mid d1 d2 = some child ∧
      child.Triangles.length = d1.Triangles.length ∧
      child.Gene = draw d1.Gene.Rect.Dx d1.Gene.Rect.Dy child.Triangles := by
  unfold crossover
  rw [if_neg (by omega)]
  exact ⟨_, rfl, by simp, rfl⟩

theorem mutate_total (draw : DrawFn) (mdec : Nat → Bool) (rnds : Nat → Nat → Nat) (d : DNA)
    (hDx : d.Gene.Rect.Dx ≠ 0) (hDy : d.Gene.Rect.Dy ≠ 0) :
    ∃ d2, mutate draw mdec rnds d = some d2 ∧
      d2.Gene = draw d.Gene.Rect.Dx d.Gene.Rect.Dy d2.Triangles := by
  have hside : ∀ it ∈ d.Triangles.enum, ∃ t,
      (if mdec it.1 then createTriangle (rnds it.1) d.Gene.Rect.Dx d.Gene.Rect.Dy
        else some it.2) = some t ∧ True := by
    intro it _
    by_cases hm : mdec it.1
    · obtain ⟨t, ht⟩ := createTriangle_some (rnds it.1) _ _ hDx hDy
      exact ⟨t, by rw [if_pos hm, ht], trivial⟩
    · exact ⟨it.2, by rw [if_neg hm], trivial⟩
  obtain ⟨tris, hs, _, _⟩ := GA.seqO_total _ (fun _ => True) d.Triangles.enum hside
  refine ⟨{ d with Triangles := tris, Gene := draw d.Gene.Rect.Dx d.Gene.Rect.Dy tris }, ?_, rfl⟩
  unfold mutate
  rw [hs]
  rfl

theorem selectionStep_totalT (draw : DrawFn) (rnds : Nat → Nat × Nat) (mids : Nat → Nat)
    (muts : Nat → Nat → Bool) (triRnds : Nat → Nat → Nat → Nat)
    (pool : List DNA) (target : GA.RGBA) (i : Nat)
    (hpool : pool ≠ []) (N : Nat) (hN : 0 < N)
    (htri : ∀ g ∈ pool, g.Triangles.length = N)
    (hrect : ∀ g ∈ pool, g.Gene.Rect = target.Rect)
    (hDx : target.Rect.Dx ≠ 0) (hDy : target.Rect.Dy ≠ 0)
    (hdrawRect : ∀ ts, (draw target.Rect.Dx target.Rect.Dy ts).Rect = target.Rect)
    (hdrawLen : ∀ ts, (draw target.Rect.Dx target.Rect.Dy ts).Pix.length ≤ target.Pix.length) :
    ∃ d2, selectionStep draw rnds mids muts triRnds pool target i = some d2 ∧ 0 ≤ d2.Fitness := by
  have hplen : pool.length ≠ 0 := fun h => hpool (List.length_eq_zero.mp h)
  have hpos : 0 < pool.length := Nat.pos_of_ne_zero hplen
  have ha : pool.getD ((rnds i).1 % pool.length) default ∈ pool :=
    GA.getD_mem _ _ (Nat.mod_lt _ hpos)
  have hb : pool.getD ((rnds i).2 % pool.length) default ∈ pool :=
    GA.getD_mem _ _ (Nat.mod_lt _ hpos)
  have haN := htri _ ha
  have hbN := htri _ hb
  have haR := hrect _ ha
  unfold selectionStep
  rw [if_neg hplen, if_neg (by rw [haN]; omega)]
  obtain ⟨child, hchild, hclen, hcgene⟩ := crossover_someT draw
    (mids i % (pool.getD ((rnds i).1 % pool.length) default).Triangles.length)
    (pool.getD ((rnds i).1 % pool.length) default)
    (pool.getD ((rnds i).2 % pool.length) default) (by rw [haN, hbN])
  have hcg : child.Gene = draw target.Rect.Dx target.Rect.Dy child.Triangles := by
    rw [hcgene, haR]
  have hcRect : child.Gene.Rect = target.Rect := by
    rw [hcg]
    exact hdrawRect _
  obtain ⟨child2, hmut, hc2gene⟩ := mutate_total draw (muts i) (triRnds i) child
    (by rw [hcRect]; exact hDx) (by rw [hcRect]; exact hDy)
  have hc2 : child2.Gene = draw target.Rect.Dx target.Rect.Dy child2.Triangles := by
    rw [hc2gene, hcRect]
  have hc2len : child2.Gene.Pix.length ≤ target.Pix.length := by
    rw [hc2]
    exact hdrawLen _
  rw [hchild, Option.some_bind, hmut, Option.some_bind]
  refine ⟨_, calcFitness_eqT _ _ _ (GA.diff_some _ _ (by omega)), ?_⟩
  exact Int.natCast_nonneg _

theorem naturalSelection_totalT (draw : DrawFn) (rnds : Nat → Nat × Nat) (mids : Nat → Nat)
    (muts : Nat → Nat → Bool) (triRnds : Nat → Nat → Nat → Nat)
    (pool population : List DNA) (target : GA.RGBA)
    (hpool : pool ≠ []) (N : Nat) (hN : 0 < N)
    (htri : ∀ g ∈ pool, g.Triangles.length = N)
    (hrect : ∀ g ∈ pool, g.Gene.Rect = target.Rect)
    (hDx : target.Rect.Dx ≠ 0) (hDy : target.Rect.Dy ≠ 0)
    (hdrawRect : ∀ ts, (draw target.Rect.Dx target.Rect.Dy ts).Rect = target.Rect)
    (hdrawLen : ∀ ts, (draw target.Rect.Dx target.Rect.Dy ts).Pix.length ≤ target.Pix.length) :
    ∃ next, naturalSelection draw rnds mids muts triRnds pool population target = some next ∧
      next.length = population.length ∧ ∀ g ∈ next, 0 ≤ g.Fitness := by
  obtain ⟨next, h1, h2, h3⟩ := GA.seqO_total (selectionStep draw rnds mids muts triRnds pool target)
    (fun g => 0 ≤ g.Fitness) (List.range population.length)
    (fun i _ => selectionStep_totalT draw rnds mids muts triRnds pool target i hpool N hN htri
      hrect hDx hDy hdrawRect hdrawLen)
  exact ⟨next, h1, by simpa using h2, h3⟩

theorem createDNA_totalT (draw : DrawFn) (numTriangles : Nat) (rnds : Nat → Nat → Nat)
    (target : GA.RGBA) (hDx : target.Rect.Dx ≠ 0) (hDy : target.Rect.Dy ≠ 0)
    (hdrawLen : ∀ ts, (draw target.Rect.Dx target.Rect.Dy ts).Pix.length ≤ target.Pix.length) :
    ∃ d, createDNA draw numTriangles rnds target = some d := by
  obtain ⟨tris, hs, _, _⟩ := GA.seqO_total
    (fun i => createTriangle (rnds i) target.Rect.Dx target.Rect.Dy) (fun _ => True)
    (List.range numTriangles) (fun i _ => by
      obtain ⟨t, ht⟩ := createTriangle_some (rnds i) _ _ hDx hDy
      exact ⟨t, ht, trivial⟩)
  unfold createDNA
  rw [hs, Option.some_bind]
  refine ⟨_, calcFitness_eqT _ _ _ (GA.diff_some _ _ ?_)⟩
  show ¬ target.Pix.length < (draw target.Rect.Dx target.Rect.Dy tris).Pix.length
  have := hdrawLen tris
  omega

theorem createPopulation_totalT (draw : DrawFn) (popSize numTriangles : Nat)
    (rnds : Nat → Nat → Nat → Nat) (target : GA.RGBA)
    (hDx : target.Rect.Dx ≠ 0) (hDy : target.Rect.Dy ≠ 0)
    (hdrawLen : ∀ ts, (draw target.Rect.Dx target.Rect.Dy ts).Pix.length ≤ target.Pix.length) :
    ∃ pop, createPopulation draw popSize numTriangles rnds target = some pop ∧
      pop.length = popSize := by
  obtain ⟨pop, h1, h2, _⟩ := GA.seqO_total (fun i => createDNA draw numTriangles (rnds i) target)
    (fun _ => True) (List.range popSize) (fun i _ => by
      obtain ⟨d, hd⟩ := createDNA_totalT draw numTriangles (rnds i) target hDx hDy hdrawLen
      exact ⟨d, hd, trivial⟩)
  exact ⟨pop, h1, by simpa using h2⟩

end Tri

namespace Tri

theorem createPool_degen (K : Nat) (pop : List DNA) (hK : K < pop.length)
    (hflat : ((GA.insertionSortF (fun d : DNA => d.Fitness) pop).getD K default).Fitness
      = ((GA.insertionSortF (fun d : DNA => d.Fitness) pop).getD 0 default).Fitness) :
    createPool K pop = some (GA.insertionSortF (fun d : DNA => d.Fitness) pop,
      GA.insertionSortF (fun d : DNA => d.Fitness) pop) := by
  have hSlen : (GA.insertionSortF (fun d : DNA => d.Fitness) pop).length = pop.length :=
    (GA.perm_insertionSortF _ pop).length_eq
  have hlen1 : ((GA.insertionSortF (fun d : DNA => d.Fitness) pop).take (K + 1)).length
      = K + 1 := by
    rw [List.length_take]
    omega
  have hcond : ((((GA.insertionSortF (fun d : DNA => d.Fitness) pop).take (K + 1)).getD
        ((((GA.insertionSortF (fun d : DNA => d.Fitness) pop).take (K + 1)).length) - 1)
        default).Fitness
      - (((GA.insertionSortF (fun d : DNA => d.Fitness) pop).take (K + 1)).getD 0
        default).Fitness) = 0 := by
    rw [hlen1, Nat.add_sub_cancel, GA.getD_take _ default (show K < K + 1 by omega),
      GA.getD_take _ default (show 0 < K + 1 by omega)]
    omega
  simp only [createPool]
  rw [if_neg (show ¬ pop.length < K + 1 by omega), if_pos hcond]

theorem createPool_specT (K : Nat) (pop : List DNA) (hK : K < pop.length)
    (hne : ((GA.insertionSortF (fun d : DNA => d.Fitness) pop).getD K default).Fitness
      ≠ ((GA.insertionSortF (fun d : DNA => d.Fitness) pop).getD 0 default).Fitness) :
    ∃ pool,
      createPool K pop = some (pool, GA.insertionSortF (fun d : DNA => d.Fitness) pop) ∧
      (pool.length : Int) = ((List.range K).map fun i =>
          ((GA.insertionSortF (fun d : DNA => d.Fitness) pop).getD K default).Fitness
            - ((GA.insertionSortF (fun d : DNA => d.Fitness) pop).getD i default).Fitness).sum ∧
      ∀ g ∈ pool, g ∈ (GA.insertionSortF (fun d : DNA => d.Fitness) pop).take K := by
  have hSlen : (GA.insertionSortF (fun d : DNA => d.Fitness) pop).length = pop.length :=
    (GA.perm_insertionSortF _ pop).length_eq
  have hsorted := GA.sorted_insertionSortF (fun d : DNA => d.Fitness) pop
  have hlen1 : ((GA.insertionSortF (fun d : DNA => d.Fitness) pop).take (K + 1)).length
      = K + 1 := by
    rw [List.length_take]
    omega
  have htop : ∀ i, i < K + 1 →
      ((GA.insertionSortF (fun d : DNA => d.Fitness) pop).take (K + 1)).getD i default
        = (GA.insertionSortF (fun d : DNA => d.Fitness) pop).getD i default :=
    fun i hi => GA.getD_take _ default hi
  have hcond : ¬ ((((GA.insertionSortF (fun d : DNA => d.Fitness) pop).take (K + 1)).getD
        ((((GA.insertionSortF (fun d : DNA => d.Fitness) pop).take (K + 1)).length) - 1)
        default).Fitness
      - (((GA.insertionSortF (fun d : DNA => d.Fitness) pop).take (K + 1)).getD 0
        default).Fitness) = 0 := by
    rw [hlen1, Nat.add_sub_cancel, htop K (by omega), htop 0 (by omega)]
    omega
  simp only [createPool]
  rw [if_neg (show ¬ pop.length < K + 1 by omega), if_neg hcond]
  refine ⟨_, rfl, ?_, ?_⟩
  · simp only [List.length_flatMap, Function.comp_def, List.length_replicate]
    apply GA.sum_toNat_eq
    intro i hi
    have hiK : i < K := by simpa using hi
    rw [htop K (by omega), htop i (by omega)]
    constructor
    · have hle : ((GA.insertionSortF (fun d : DNA => d.Fitness) pop).getD i default).Fitness
          ≤ ((GA.insertionSortF (fun d : DNA => d.Fitness) pop).getD K default).Fitness :=
        GA.sorted_getD_le (fun d : DNA => d.Fitness)
          (GA.insertionSortF (fun d : DNA => d.Fitness) pop) default hsorted
          (le_of_lt hiK) (by omega)
      omega
    · rfl
  · intro g hg
    simp only [List.mem_flatMap, List.mem_replicate, List.mem_range] at hg
    obtain ⟨i, hiK, _, rfl⟩ := hg
    rw [htop i (by omega)]
    exact GA.getD_mem_take _ default hiK (by omega)

theorem createPool_sorts (K : Nat) (pop : List DNA) (hK : K < pop.length) :
    ∃ pool, createPool K pop
      = some (pool, GA.insertionSortF (fun d : DNA => d.Fitness) pop) := by
  by_cases hflat : ((GA.insertionSortF (fun d : DNA => d.Fitness) pop).getD K default).Fitness
      = ((GA.insertionSortF (fun d : DNA => d.Fitness) pop).getD 0 default).Fitness
  · exact ⟨_, createPool_degen K pop hK hflat⟩
  · obtain ⟨pool, h1, _, _⟩ := createPool_specT K pop hK hflat
    exact ⟨pool, h1⟩

end Tri

/-! ### Auxiliary: natural selection panics on an empty pool -/

theorem Raw.naturalSelection_empty_pool (rnds : Nat → Nat × Nat) (mids : Nat → Nat)
    (muts : Nat → Nat → Bool) (news : Nat → Nat → Nat)
    (population : List DNA) (target : GA.RGBA) (hpop : population ≠ []) :
    naturalSelection rnds mids muts news [] population target = none := by
  cases population with
  | nil => simp at hpop
  | cons p ps =>
    unfold naturalSelection
    rw [List.length_cons, List.range_succ_eq_map]
    simp [GA.seqO, selectionStep]

/-! ### The claims -/

/-- C1: the claim states that `calcFitness` stores fitness `1` when the
rendered buffer is pixel-identical to the target (`diff = 0`).  The code
disagrees: the guarded `d.Fitness = 1` assignment is immediately followed
by the unconditional `d.Fitness = difference`, so a zero distance is
stored as `0`.  This theorem evaluates both variants' `calcFitness` at a
genome identical to the target (starting from fitness `5` to show the
overwrite): the distance is `0` and the stored fitness is `0`, not `1`. -/
theorem c1_calcFitness_zero_distance_bug :
    GA.diff ⟨[7, 7, 7, 7], 4, ⟨1, 1⟩⟩ ⟨[7, 7, 7, 7], 4, ⟨1, 1⟩⟩ = some 0 ∧
    Raw.calcFitness ⟨⟨[7, 7, 7, 7], 4, ⟨1, 1⟩⟩, 5⟩ ⟨[7, 7, 7, 7], 4, ⟨1, 1⟩⟩
      = some ⟨⟨[7, 7, 7, 7], 4, ⟨1, 1⟩⟩, 0⟩ ∧
    Tri.calcFitness ⟨⟨[7, 7, 7, 7], 4, ⟨1, 1⟩⟩, [], 5⟩ ⟨[7, 7, 7, 7], 4, ⟨1, 1⟩⟩
      = some ⟨⟨[7, 7, 7, 7], 4, ⟨1, 1⟩⟩, [], 0⟩ := by
  refine ⟨?_, ?_, ?_⟩ <;> decide

/-- C2 counterexample: the claim asserts the flat-fitness fallback (pool =
entire population, no panic) in BOTH genome variants.  The raw-pixel
variant has no such check: on a two-genome population of equal fitness
with cutoff `K = 1`, `createPool` yields zero weights and hence an EMPTY
pool (not the population), and `naturalSelection` on that empty pool
panics (`rand.Intn(0)` — modelled as `none`). -/
theorem c2_flat_pool_counterexample :
    Raw.createPool 1 [⟨⟨[0, 0, 0, 0], 4, ⟨1, 1⟩⟩, 7⟩, ⟨⟨[9, 9, 9, 9], 4, ⟨1, 1⟩⟩, 7⟩]
      = some ([], [⟨⟨[0, 0, 0, 0], 4, ⟨1, 1⟩⟩, 7⟩, ⟨⟨[9, 9, 9, 9], 4, ⟨1, 1⟩⟩, 7⟩]) ∧
    Raw.naturalSelection (fun _ => (0, 0)) (fun _ => 0) (fun _ _ => false) (fun _ _ => 0)
      [] [⟨⟨[0, 0, 0, 0], 4, ⟨1, 1⟩⟩, 7⟩, ⟨⟨[9, 9, 9, 9], 4, ⟨1, 1⟩⟩, 7⟩]
      ⟨[0, 0, 0, 0], 4, ⟨1, 1⟩⟩ = none := by
  refine ⟨?_, ?_⟩ <;> decide

/-- C2 (amended): only the triangle variant short-circuits on a flat
fitness landscape: when the best and the `K`-th ranked genome have equal
fitness, its `createPool` returns the entire (sorted, aliased) population
as the pool and the following `naturalSelection` completes without panic
(under the standing well-formedness side conditions).  The raw-pixel
variant has no such check: all weights are zero, its pool is empty, and
`naturalSelection` on the empty pool panics. -/
theorem c2_flat_pool_amended
    (K : Nat) (popT : List Tri.DNA) (hKT : K < popT.length)
    (hflatT : ((GA.insertionSortF (fun d : Tri.DNA => d.Fitness) popT).getD K default).Fitness
      = ((GA.insertionSortF (fun d : Tri.DNA => d.Fitness) popT).getD 0 default).Fitness)
    (draw : Tri.DrawFn) (rnds : Nat → Nat × Nat) (mids : Nat → Nat)
    (muts : Nat → Nat → Bool) (triRnds : Nat → Nat → Nat → Nat) (target : GA.RGBA)
    (N : Nat) (hN : 0 < N)
    (htri : ∀ g ∈ popT, g.Triangles.length = N)
    (hrect : ∀ g ∈ popT, g.Gene.Rect = target.Rect)
    (hDx : target.Rect.Dx ≠ 0) (hDy : target.Rect.Dy ≠ 0)
    (hdrawRect : ∀ ts, (draw target.Rect.Dx target.Rect.Dy ts).Rect = target.Rect)
    (hdrawLen : ∀ ts, (draw target.Rect.Dx target.Rect.Dy ts).Pix.length ≤ target.Pix.length)
    (K2 : Nat) (popR : List Raw.DNA) (hKR : K2 < popR.length)
    (hflatR : ((GA.insertionSortF (fun d : Raw.DNA => d.Fitness) popR).getD K2 default).Fitness
      = ((GA.insertionSortF (fun d : Raw.DNA => d.Fitness) popR).getD 0 default).Fitness)
    (rndsR : Nat → Nat × Nat) (midsR : Nat → Nat) (mutsR : Nat → Nat → Bool)
    (newsR : Nat → Nat → Nat) (targetR : GA.RGBA) (hpopR : popR ≠ []) :
    Tri.createPool K popT = some (GA.insertionSortF (fun d : Tri.DNA => d.Fitness) popT,
        GA.insertionSortF (fun d : Tri.DNA => d.Fitness) popT) ∧
    (∃ next, Tri.naturalSelection draw rnds mids muts triRnds
        (GA.insertionSortF (fun d : Tri.DNA => d.Fitness) popT) popT target = some next ∧
        next.length = popT.length) ∧
    Raw.createPool K2 popR = some ([], GA.insertionSortF (fun d : Raw.DNA => d.Fitness) popR) ∧
    Raw.naturalSelection rndsR midsR mutsR newsR [] popR targetR = none := by
  have hperm := GA.perm_insertionSortF (fun d : Tri.DNA => d.Fitness) popT
  have hlen : (GA.insertionSortF (fun d : Tri.DNA => d.Fitness) popT).length = popT.length :=
    hperm.length_eq
  have hpoolne : GA.insertionSortF (fun d : Tri.DNA => d.Fitness) popT ≠ [] := by
    intro h
    rw [h] at hlen
    simp at hlen
    omega
  refine ⟨Tri.createPool_degen K popT hKT hflatT, ?_, Raw.createPool_flat K2 popR hKR hflatR, ?_⟩
  · obtain ⟨next, h1, h2, _⟩ := Tri.naturalSelection_totalT draw rnds mids muts triRnds
      (GA.insertionSortF (fun d : Tri.DNA => d.Fitness) popT) popT target hpoolne N hN
      (fun g hg => htri g (hperm.mem_iff.mp hg))
      (fun g hg => hrect g (hperm.mem_iff.mp hg)) hDx hDy hdrawRect hdrawLen
    exact ⟨next, h1, h2⟩
  · exact Raw.naturalSelection_empty_pool rndsR midsR mutsR newsR popR targetR hpopR

/-- C2 witness: the amended claim instantiated at a one-genome flat
triangle population (`K = 0`) and a two-genome flat raw-pixel population
(`K = 1`). -/
theorem c2_flat_pool_amended_witness :
    Tri.createPool 0 [⟨⟨[0, 0, 0, 0], 4, ⟨1, 1⟩⟩, [⟨⟨0, 0⟩, ⟨0, 0⟩, ⟨0, 0⟩, ⟨0, 0, 0, 0⟩⟩], 3⟩]
      = some ([⟨⟨[0, 0, 0, 0], 4, ⟨1, 1⟩⟩, [⟨⟨0, 0⟩, ⟨0, 0⟩, ⟨0, 0⟩, ⟨0, 0, 0, 0⟩⟩], 3⟩],
          [⟨⟨[0, 0, 0, 0], 4, ⟨1, 1⟩⟩, [⟨⟨0, 0⟩, ⟨0, 0⟩, ⟨0, 0⟩, ⟨0, 0, 0, 0⟩⟩], 3⟩]) ∧
    (∃ next, Tri.naturalSelection
        (fun w h _ => ⟨List.replicate (w * h * 4) 0, w * 4, ⟨w, h⟩⟩)
        (fun _ => (0, 0)) (fun _ => 0) (fun _ _ => false) (fun _ _ _ => 0)
        [⟨⟨[0, 0, 0, 0], 4, ⟨1, 1⟩⟩, [⟨⟨0, 0⟩, ⟨0, 0⟩, ⟨0, 0⟩, ⟨0, 0, 0, 0⟩⟩], 3⟩]
        [⟨⟨[0, 0, 0, 0], 4, ⟨1, 1⟩⟩, [⟨⟨0, 0⟩, ⟨0, 0⟩, ⟨0, 0⟩, ⟨0, 0, 0, 0⟩⟩], 3⟩]
        ⟨[0, 0, 0, 0], 4, ⟨1, 1⟩⟩ = some next ∧ next.length = 1) ∧
    Raw.createPool 1 [⟨⟨[0, 0, 0, 0], 4, ⟨1, 1⟩⟩, 7⟩, ⟨⟨[8, 8, 8, 8], 4, ⟨1, 1⟩⟩, 7⟩]
      = some ([], [⟨⟨[0, 0, 0, 0], 4, ⟨1, 1⟩⟩, 7⟩, ⟨⟨[8, 8, 8, 8], 4, ⟨1, 1⟩⟩, 7⟩]) ∧
    Raw.naturalSelection (fun _ => (1, 1)) (fun _ => 1) (fun _ _ => true) (fun _ _ => 1)
      [] [⟨⟨[0, 0, 0, 0], 4, ⟨1, 1⟩⟩, 7⟩, ⟨⟨[8, 8, 8, 8], 4, ⟨1, 1⟩⟩, 7⟩]
      ⟨[0, 0, 0, 0], 4, ⟨1, 1⟩⟩ = none := by
  exact c2_flat_pool_amended 0
    [⟨⟨[0, 0, 0, 0], 4, ⟨1, 1⟩⟩, [⟨⟨0, 0⟩, ⟨0, 0⟩, ⟨0, 0⟩, ⟨0, 0, 0, 0⟩⟩], 3⟩]
    (by decide) rfl
    (fun w h _ => ⟨List.replicate (w * h * 4) 0, w * 4, ⟨w, h⟩⟩)
    (fun _ => (0, 0)) (fun _ => 0) (fun _ _ => false) (fun _ _ _ => 0)
    ⟨[0, 0, 0, 0], 4, ⟨1, 1⟩⟩ 1 (by decide) (by decide) (by decide) (by decide) (by decide)
    (fun _ => rfl) (fun _ => by simp) 1
    [⟨⟨[0, 0, 0, 0], 4, ⟨1, 1⟩⟩, 7⟩, ⟨⟨[8, 8, 8, 8], 4, ⟨1, 1⟩⟩, 7⟩]
    (by decide) (by decide)
    (fun _ => (1, 1)) (fun _ => 1) (fun _ _ => true) (fun _ _ => 1)
    ⟨[0, 0, 0, 0], 4, ⟨1, 1⟩⟩ (by decide)

/-- C3: `squareDifference` is exact despite the wrapping `uint64`
subtraction: for channel bytes `x, y` the returned `uint64` is the exact
square `(x - y)^2` (as a natural number via `natAbs`, and as the exact
signed square once converted to `int64`), even when `y > x`; consequently
the summation loop of `diff` adds exact per-byte squared differences (the
`int64` accumulator cannot wrap for any physically possible buffer — the
bound `2 ^ 47` on the byte count is far beyond any real slice). -/
theorem c3_squareDifference_exact (x y : Nat) (hx : x < 256) (hy : y < 256)
    (ps qs : List Nat) (hp : ∀ b ∈ ps, b < 256) (hq : ∀ b ∈ qs, b < 256)
    (hlen : ps.length ≤ 2 ^ 47) :
    GA.squareDifference x y = ((x : Int) - y).natAbs ^ 2 ∧
    GA.int64OfUInt64 (GA.squareDifference x y) = ((x : Int) - y) ^ 2 ∧
    GA.diffSum ps qs = ((ps.zip qs).map fun xy => ((xy.1 : Int) - xy.2) ^ 2).sum := by
  exact ⟨GA.squareDifference_eq_natAbs_sq x y hx hy,
    GA.int64OfUInt64_squareDifference x y hx hy,
    GA.diffSum_exact ps qs hp hq hlen⟩

/-- C3 witness: concrete evaluation with the second operand larger than
the first (`x = 3`, `y = 200`, and a byte pair `(0, 255)` inside the
buffers). -/
theorem c3_squareDifference_exact_witness :
    GA.squareDifference 3 200 = ((3 : Int) - 200).natAbs ^ 2 ∧
    GA.int64OfUInt64 (GA.squareDifference 3 200) = ((3 : Int) - 200) ^ 2 ∧
    GA.diffSum [255, 0] [0, 255, 77]
      = (([255, 0].zip [0, 255, 77]).map fun xy => ((xy.1 : Int) - xy.2) ^ 2).sum := by
  exact c3_squareDifference_exact 3 200 (by decide) (by decide) [255, 0] [0, 255, 77]
    (by decide) (by decide) (by decide)

/-- C4: `getBest` returns the first genome attaining the maximum stored
fitness, scanning with a zero baseline — stated for both variants over
populations of nonnegative fitness (every fitness the program stores is a
nonnegative distance; with the zero baseline, an all-negative population
would degenerate to index `0`). -/
theorem c4_getBest_first_max (popR : List Raw.DNA) (popT : List Tri.DNA)
    (hneR : popR ≠ []) (hnnR : ∀ g ∈ popR, 0 ≤ g.Fitness)
    (hneT : popT ≠ []) (hnnT : ∀ g ∈ popT, 0 ≤ g.Fitness) :
    (∃ k, k < popR.length ∧ Raw.getBest popR = some (popR.getD k default) ∧
      (∀ m, m < popR.length →
        (popR.getD m default).Fitness ≤ (popR.getD k default).Fitness) ∧
      (∀ m, m < k → (popR.getD m default).Fitness < (popR.getD k default).Fitness)) ∧
    (∃ k, k < popT.length ∧ Tri.getBest popT = some (popT.getD k default) ∧
      (∀ m, m < popT.length →
        (popT.getD m default).Fitness ≤ (popT.getD k default).Fitness) ∧
      (∀ m, m < k → (popT.getD m default).Fitness < (popT.getD k default).Fitness)) := by
  exact ⟨GA.getBestG_spec (fun d : Raw.DNA => d.Fitness) default popR hneR hnnR,
    GA.getBestG_spec (fun d : Tri.DNA => d.Fitness) default popT hneT hnnT⟩

/-- C4 witness: a three-genome population whose maximum fitness `9` first
occurs at index `1` (with a later tie at index `2`). -/
theorem c4_getBest_first_max_witness :
    (∃ k, k < [exRDNA3, exRDNA9, exRDNA9b].length ∧
      Raw.getBest [exRDNA3, exRDNA9, exRDNA9b]
        = some ([exRDNA3, exRDNA9, exRDNA9b].getD k default) ∧
      (∀ m, m < [exRDNA3, exRDNA9, exRDNA9b].length →
        ([exRDNA3, exRDNA9, exRDNA9b].getD m default).Fitness
          ≤ ([exRDNA3, exRDNA9, exRDNA9b].getD k default).Fitness) ∧
      (∀ m, m < k → ([exRDNA3, exRDNA9, exRDNA9b].getD m default).Fitness
        < ([exRDNA3, exRDNA9, exRDNA9b].getD k default).Fitness)) ∧
    (∃ k, k < [exTDNA6].length ∧
      Tri.getBest [exTDNA6] = some ([exTDNA6].getD k default) ∧
      (∀ m, m < [exTDNA6].length → ([exTDNA6].getD m default).Fitness
        ≤ ([exTDNA6].getD k default).Fitness) ∧
      (∀ m, m < k → ([exTDNA6].getD m default).Fitness
        < ([exTDNA6].getD k default).Fitness)) := by
  exact c4_getBest_first_max [exRDNA3, exRDNA9, exRDNA9b] [exTDNA6]
    (by decide) (by decide) (by decide) (by decide)

/-- C5: on the weighting path, the pool built by `createPool` has length
equal to the sum of the weights `fitness[top[K]] - fitness[top[i]]` over
the first `K` fitness-sorted genomes (scaled by `10` in the raw-pixel
variant, unscaled in the triangle variant), and every pool element is one
of the first `K` genomes of the fitness-sorted population (hence lies in
the top-`K+1` sorted slice).  The triangle variant takes this path exactly
when the flat-fitness check fails; the raw-pixel variant always takes
it. -/
theorem c5_pool_size_and_membership
    (K : Nat) (popT : List Tri.DNA) (hKT : K < popT.length)
    (hne : ((GA.insertionSortF (fun d : Tri.DNA => d.Fitness) popT).getD K default).Fitness
      ≠ ((GA.insertionSortF (fun d : Tri.DNA => d.Fitness) popT).getD 0 default).Fitness)
    (K2 : Nat) (popR : List Raw.DNA) (hKR : K2 < popR.length) :
    (∃ pool, Tri.createPool K popT
        = some (pool, GA.insertionSortF (fun d : Tri.DNA => d.Fitness) popT) ∧
      (pool.length : Int) = ((List.range K).map fun i =>
        ((GA.insertionSortF (fun d : Tri.DNA => d.Fitness) popT).getD K default).Fitness
          - ((GA.insertionSortF (fun d : Tri.DNA => d.Fitness) popT).getD i
            default).Fitness).sum ∧
      ∀ g ∈ pool, g ∈ (GA.insertionSortF (fun d : Tri.DNA => d.Fitness) popT).take K) ∧
    (∃ pool, Raw.createPool K2 popR
        = some (pool, GA.insertionSortF (fun d : Raw.DNA => d.Fitness) popR) ∧
      (pool.length : Int) = ((List.range K2).map fun i =>
        (((GA.insertionSortF (fun d : Raw.DNA => d.Fitness) popR).getD K2 default).Fitness
          - ((GA.insertionSortF (fun d : Raw.DNA => d.Fitness) popR).getD i
            default).Fitness) * 10).sum ∧
      ∀ g ∈ pool, g ∈ (GA.insertionSortF (fun d : Raw.DNA => d.Fitness) popR).take K2) := by
  exact ⟨Tri.createPool_specT K popT hKT hne, Raw.createPool_specR K2 popR hKR⟩

/-- C5 witness: cutoff `K = 1` over two-genome populations with distinct
fitness values. -/
theorem c5_pool_size_and_membership_witness :
    (∃ pool, Tri.createPool 1 [exTDNA, exTDNA6]
        = some (pool, GA.insertionSortF (fun d : Tri.DNA => d.Fitness) [exTDNA, exTDNA6]) ∧
      (pool.length : Int) = ((List.range 1).map fun i =>
        ((GA.insertionSortF (fun d : Tri.DNA => d.Fitness) [exTDNA, exTDNA6]).getD 1
          default).Fitness
          - ((GA.insertionSortF (fun d : Tri.DNA => d.Fitness) [exTDNA, exTDNA6]).getD i
            default).Fitness).sum ∧
      ∀ g ∈ pool,
        g ∈ (GA.insertionSortF (fun d : Tri.DNA => d.Fitness) [exTDNA, exTDNA6]).take 1) ∧
    (∃ pool, Raw.createPool 1 [exRDNA3, exRDNA9]
        = some (pool, GA.insertionSortF (fun d : Raw.DNA => d.Fitness) [exRDNA3, exRDNA9]) ∧
      (pool.length : Int) = ((List.range 1).map fun i =>
        (((GA.insertionSortF (fun d : Raw.DNA => d.Fitness) [exRDNA3, exRDNA9]).getD 1
          default).Fitness
          - ((GA.insertionSortF (fun d : Raw.DNA => d.Fitness) [exRDNA3, exRDNA9]).getD i
            default).Fitness) * 10).sum ∧
      ∀ g ∈ pool,
        g ∈ (GA.insertionSortF (fun d : Raw.DNA => d.Fitness) [exRDNA3, exRDNA9]).take 1) := by
  exact c5_pool_size_and_membership 1 [exTDNA, exTDNA6] (by decide) (by decide)
    1 [exRDNA3, exRDNA9] (by decide)

/-- C6: for parents of equal unit count `N` and split index `mid < N`,
`crossover` yields a child of exactly `N` units where unit `i` is copied
from the first parent when `i > mid` and from the second when `i ≤ mid`
(index `mid` itself from the second parent) — in both the triangle-list
and raw-pixel-byte encodings. -/
theorem c6_crossover_split_boundary
    (draw : Tri.DrawFn) (midT : Nat) (a b : Tri.DNA) (NT : Nat)
    (haT : a.Triangles.length = NT) (hbT : b.Triangles.length = NT) (hmT : midT < NT)
    (midR : Nat) (c d : Raw.DNA) (NR : Nat)
    (hcR : c.Gene.Pix.length = NR) (hdR : d.Gene.Pix.length = NR) (hmR : midR < NR) :
    (∃ child, Tri.crossover draw midT a b = some child ∧
      child.Triangles.length = NT ∧
      ∀ i, i < NT → child.Triangles.getD i default
        = if midT < i then a.Triangles.getD i default else b.Triangles.getD i default) ∧
    (∃ child, Raw.crossover midR c d = some child ∧
      child.Gene.Pix.length = NR ∧
      ∀ i, i < NR → child.Gene.Pix.getD i 0
        = if midR < i then c.Gene.Pix.getD i 0 else d.Gene.Pix.getD i 0) := by
  constructor
  · unfold Tri.crossover
    rw [if_neg (by omega)]
    refine ⟨_, rfl, by simp [haT], ?_⟩
    intro i hi
    exact GA.getD_map_range _ (by omega) default
  · unfold Raw.crossover
    rw [if_neg (by omega)]
    refine ⟨_, rfl, by simp [hcR], ?_⟩
    intro i hi
    exact GA.getD_map_range _ (by omega) 0

/-- C6 witness: one-triangle parents split at `mid = 0` and four-byte
parents split at `mid = 1`. -/
theorem c6_crossover_split_boundary_witness :
    (∃ child, Tri.crossover exDraw 0 exTDNA exTDNA2 = some child ∧
      child.Triangles.length = 1 ∧
      ∀ i, i < 1 → child.Triangles.getD i default
        = if 0 < i then exTDNA.Triangles.getD i default
          else exTDNA2.Triangles.getD i default) ∧
    (∃ child, Raw.crossover 1 exRDNA0 exRDNA8 = some child ∧
      child.Gene.Pix.length = 4 ∧
      ∀ i, i < 4 → child.Gene.Pix.getD i 0
        = if 1 < i then exRDNA0.Gene.Pix.getD i 0 else exRDNA8.Gene.Pix.getD i 0) := by
  exact c6_crossover_split_boundary exDraw 0 exTDNA exTDNA2 1 (by decide) (by decide)
    (by decide) 1 exRDNA0 exRDNA8 4 (by decide) (by decide) (by decide)

/-- C7: crossover of a genome with itself reproduces the genome's own
content for every split index: the raw-pixel child's byte buffer equals
the parent's buffer byte for byte, and the triangle child's list equals
the parent's list, its buffer being a fresh render of that same list. -/
theorem c7_crossover_self_identity (draw : Tri.DrawFn) (midT : Nat) (A : Tri.DNA)
    (hT : midT < A.Triangles.length) (midR : Nat) (B : Raw.DNA)
    (hR : midR < B.Gene.Pix.length) :
    (∃ child, Tri.crossover draw midT A A = some child ∧
      child.Triangles = A.Triangles ∧
      child.Gene = draw A.Gene.Rect.Dx A.Gene.Rect.Dy A.Triangles) ∧
    (∃ child, Raw.crossover midR B B = some child ∧ child.Gene.Pix = B.Gene.Pix) := by
  have hmapT : ((List.range A.Triangles.length).map fun i =>
      if midT < i then A.Triangles.getD i default else A.Triangles.getD i default)
      = A.Triangles := by
    rw [List.map_congr_left (fun i _ => ite_self (A.Triangles.getD i default))]
    exact GA.map_getD_range A.Triangles default
  have hmapR : ((List.range B.Gene.Pix.length).map fun i =>
      if midR < i then B.Gene.Pix.getD i 0 else B.Gene.Pix.getD i 0)
      = B.Gene.Pix := by
    rw [List.map_congr_left (fun i _ => ite_self (B.Gene.Pix.getD i 0))]
    exact GA.map_getD_range B.Gene.Pix 0
  constructor
  · unfold Tri.crossover
    rw [if_neg (by omega)]
    exact ⟨_, rfl, hmapT, congrArg (draw A.Gene.Rect.Dx A.Gene.Rect.Dy) hmapT⟩
  · unfold Raw.crossover
    rw [if_neg (by omega)]
    exact ⟨_, rfl, hmapR⟩

/-- C7 witness: self-crossover of a one-triangle genome at split `0` and
of a four-byte genome at split `2`. -/
theorem c7_crossover_self_identity_witness :
    (∃ child, Tri.crossover exDraw 0 exTDNA exTDNA = some child ∧
      child.Triangles = exTDNA.Triangles ∧
      child.Gene = exDraw exTDNA.Gene.Rect.Dx exTDNA.Gene.Rect.Dy exTDNA.Triangles) ∧
    (∃ child, Raw.crossover 2 exRDNA0 exRDNA0 = some child ∧
      child.Gene.Pix = exRDNA0.Gene.Pix) := by
  exact c7_crossover_self_identity exDraw 0 exTDNA (by decide) 2 exRDNA0 (by decide)

/-- C8 counterexample: the claim asserts `diff` fails loudly on EVERY size
mismatch, also when the second buffer is longer.  It does not: with a
4-byte first buffer and an 8-byte second buffer whose first four bytes
match, `diff` silently returns `0`, ignoring the second buffer's tail. -/
theorem c8_diff_longer_second_buffer_counterexample :
    (⟨[1, 2, 3, 4], 4, ⟨1, 1⟩⟩ : GA.RGBA).Pix.length
      ≠ (⟨[1, 2, 3, 4, 250, 250, 250, 250], 8, ⟨2, 1⟩⟩ : GA.RGBA).Pix.length ∧
    GA.diff ⟨[1, 2, 3, 4], 4, ⟨1, 1⟩⟩ ⟨[1, 2, 3, 4, 250, 250, 250, 250], 8, ⟨2, 1⟩⟩
      = some 0 := by
  refine ⟨?_, ?_⟩ <;> decide

/-- C8 (amended): `diff` fails loudly (out-of-range indexing, modelled as
`none`) exactly when the second buffer is SHORTER than the first; when the
second buffer is at least as long, it silently computes the metric over
only the first `len(a.Pix)` bytes — the result equals `diff` against the
second buffer truncated to the first buffer's length. -/
theorem c8_diff_mismatch (a b : GA.RGBA) :
    (b.Pix.length < a.Pix.length → GA.diff a b = none) ∧
    (a.Pix.length ≤ b.Pix.length →
      GA.diff a b = GA.diff a { b with Pix := b.Pix.take a.Pix.length }) := by
  constructor
  · intro h
    unfold GA.diff
    rw [if_pos h]
  · intro h
    unfold GA.diff
    rw [if_neg (by omega), if_neg (by simp; omega)]
    simp only [GA.diffSum, GA.zip_take_length]

/-- C8 witness: the amended claim evaluated at a shorter second buffer
(loud failure) and at a longer second buffer (silent truncation to the
first four bytes). -/
theorem c8_diff_mismatch_witness :
    GA.diff ⟨[1, 2, 3, 4], 4, ⟨1, 1⟩⟩ ⟨[1, 2], 2, ⟨1, 1⟩⟩ = none ∧
    GA.diff ⟨[1, 2, 3, 4], 4, ⟨1, 1⟩⟩ ⟨[1, 2, 3, 4, 9, 9, 9, 9], 8, ⟨2, 1⟩⟩
      = GA.diff ⟨[1, 2, 3, 4], 4, ⟨1, 1⟩⟩
        { (⟨[1, 2, 3, 4, 9, 9, 9, 9], 8, ⟨2, 1⟩⟩ : GA.RGBA) with
          Pix := [1, 2, 3, 4, 9, 9, 9, 9].take
            (⟨[1, 2, 3, 4], 4, ⟨1, 1⟩⟩ : GA.RGBA).Pix.length } := by
  exact ⟨(c8_diff_mismatch ⟨[1, 2, 3, 4], 4, ⟨1, 1⟩⟩ ⟨[1, 2], 2, ⟨1, 1⟩⟩).1 (by decide),
    (c8_diff_mismatch ⟨[1, 2, 3, 4], 4, ⟨1, 1⟩⟩
      ⟨[1, 2, 3, 4, 9, 9, 9, 9], 8, ⟨2, 1⟩⟩).2 (by decide)⟩

/-- C9: `naturalSelection` returns a next generation of exactly the input
population's length whose genomes all carry a nonnegative fitness, and
`createPopulation` returns exactly `popSize` genomes — in both variants,
under the standing well-formedness side conditions (nonempty pool, uniform
genome size matching the target, nonzero canvas). -/
theorem c9_generation_invariants
    (rnds : Nat → Nat × Nat) (mids : Nat → Nat) (muts : Nat → Nat → Bool)
    (news : Nat → Nat → Nat) (poolR popR : List Raw.DNA) (targetR : GA.RGBA)
    (hpoolR : poolR ≠ []) (L : Nat) (hL : 0 < L)
    (hlenR : ∀ g ∈ poolR, g.Gene.Pix.length = L) (hLt : L ≤ targetR.Pix.length)
    (popSizeR : Nat) (rndsPR : Nat → Nat → Nat)
    (draw : Tri.DrawFn) (rndsT : Nat → Nat × Nat) (midsT : Nat → Nat)
    (mutsT : Nat → Nat → Bool) (triRnds : Nat → Nat → Nat → Nat)
    (poolT popT : List Tri.DNA) (targetT : GA.RGBA)
    (hpoolT : poolT ≠ []) (N : Nat) (hN : 0 < N)
    (htri : ∀ g ∈ poolT, g.Triangles.length = N)
    (hrect : ∀ g ∈ poolT, g.Gene.Rect = targetT.Rect)
    (hDx : targetT.Rect.Dx ≠ 0) (hDy : targetT.Rect.Dy ≠ 0)
    (hdrawRect : ∀ ts, (draw targetT.Rect.Dx targetT.Rect.Dy ts).Rect = targetT.Rect)
    (hdrawLen : ∀ ts,
      (draw targetT.Rect.Dx targetT.Rect.Dy ts).Pix.length ≤ targetT.Pix.length)
    (popSizeT numTriangles : Nat) (rndsPT : Nat → Nat → Nat → Nat) :
    (∃ next, Raw.naturalSelection rnds mids muts news poolR popR targetR = some next ∧
      next.length = popR.length ∧ ∀ g ∈ next, 0 ≤ g.Fitness) ∧
    (∃ pop, Raw.createPopulation popSizeR rndsPR targetR = some pop ∧
      pop.length = popSizeR) ∧
    (∃ next, Tri.naturalSelection draw rndsT midsT mutsT triRnds poolT popT targetT
      = some next ∧ next.length = popT.length ∧ ∀ g ∈ next, 0 ≤ g.Fitness) ∧
    (∃ pop, Tri.createPopulation draw popSizeT numTriangles rndsPT targetT = some pop ∧
      pop.length = popSizeT) := by
  exact ⟨Raw.naturalSelection_totalR rnds mids muts news poolR popR targetR hpoolR L hL
      hlenR hLt,
    Raw.createPopulation_totalR popSizeR rndsPR targetR,
    Tri.naturalSelection_totalT draw rndsT midsT mutsT triRnds poolT popT targetT hpoolT
      N hN htri hrect hDx hDy hdrawRect hdrawLen,
    Tri.createPopulation_totalT draw popSizeT numTriangles rndsPT targetT hDx hDy hdrawLen⟩

/-- C9 witness: both variants instantiated over the 1-by-1 target `exT`
with singleton pools, two-genome populations and `popSize = 5`. -/
theorem c9_generation_invariants_witness :
    (∃ next, Raw.naturalSelection (fun _ => (0, 0)) (fun _ => 0) (fun _ _ => true)
        (fun _ _ => 3) [exRDNA0] [exRDNA0, exRDNA8] exT = some next ∧
      next.length = [exRDNA0, exRDNA8].length ∧ ∀ g ∈ next, 0 ≤ g.Fitness) ∧
    (∃ pop, Raw.createPopulation 5 (fun _ _ => 0) exT = some pop ∧ pop.length = 5) ∧
    (∃ next, Tri.naturalSelection exDraw (fun _ => (0, 0)) (fun _ => 0) (fun _ _ => true)
        (fun _ _ _ => 0) [exTDNA] [exTDNA, exTDNA] exT = some next ∧
      next.length = [exTDNA, exTDNA].length ∧ ∀ g ∈ next, 0 ≤ g.Fitness) ∧
    (∃ pop, Tri.createPopulation exDraw 5 2 (fun _ _ _ => 0) exT = some pop ∧
      pop.length = 5) := by
  exact c9_generation_invariants (fun _ => (0, 0)) (fun _ => 0) (fun _ _ => true)
    (fun _ _ => 3) [exRDNA0] [exRDNA0, exRDNA8] exT (by decide) 4 (by decide)
    (by decide) (by decide) 5 (fun _ _ => 0)
    exDraw (fun _ => (0, 0)) (fun _ => 0) (fun _ _ => true) (fun _ _ _ => 0)
    [exTDNA] [exTDNA, exTDNA] exT (by decide) 1 (by decide) (by decide) (by decide)
    (by decide) (by decide) (fun _ => rfl) (fun _ => by simp [exDraw, exT]) 5 2 (fun _ _ _ => 0)

/-- C10: `createPool` sorts the caller's population slice in place: the
population as left behind (made explicit as the second component of the
model's result) is a permutation of the input population — so no genome
field is altered, genomes are only rearranged — sorted ascending by
`Fitness`, and stably so: for every fitness value, the genomes carrying it
appear in their original relative order.  Holds in both variants,
including the triangle variant's degenerate branch. -/
theorem c10_createPool_sorts_in_place
    (K : Nat) (popT : List Tri.DNA) (hKT : K < popT.length)
    (K2 : Nat) (popR : List Raw.DNA) (hKR : K2 < popR.length) :
    (∃ pr : List Tri.DNA × List Tri.DNA, Tri.createPool K popT = some pr ∧
      List.Perm pr.2 popT ∧
      pr.2.Pairwise (fun x y => x.Fitness ≤ y.Fitness) ∧
      ∀ v : Int, pr.2.filter (fun g => decide (g.Fitness = v))
        = popT.filter (fun g => decide (g.Fitness = v))) ∧
    (∃ pr : List Raw.DNA × List Raw.DNA, Raw.createPool K2 popR = some pr ∧
      List.Perm pr.2 popR ∧
      pr.2.Pairwise (fun x y => x.Fitness ≤ y.Fitness) ∧
      ∀ v : Int, pr.2.filter (fun g => decide (g.Fitness = v))
        = popR.filter (fun g => decide (g.Fitness = v))) := by
  constructor
  · obtain ⟨pool, h1⟩ := Tri.createPool_sorts K popT hKT
    exact ⟨(pool, GA.insertionSortF (fun d : Tri.DNA => d.Fitness) popT), h1,
      GA.perm_insertionSortF _ popT, GA.sorted_insertionSortF _ popT,
      fun v => GA.filter_insertionSortF _ v popT⟩
  · obtain ⟨pool, h1, _, _⟩ := Raw.createPool_specR K2 popR hKR
    exact ⟨(pool, GA.insertionSortF (fun d : Raw.DNA => d.Fitness) popR), h1,
      GA.perm_insertionSortF _ popR, GA.sorted_insertionSortF _ popR,
      fun v => GA.filter_insertionSortF _ v popR⟩

/-- C10 witness: cutoff `0` over two-genome populations (the triangle side
exercises the degenerate branch, the raw side the weighting branch). -/
theorem c10_createPool_sorts_in_place_witness :
    (∃ pr : List Tri.DNA × List Tri.DNA, Tri.createPool 0 [exTDNA6, exTDNA] = some pr ∧
      List.Perm pr.2 [exTDNA6, exTDNA] ∧
      pr.2.Pairwise (fun x y => x.Fitness ≤ y.Fitness) ∧
      ∀ v : Int, pr.2.filter (fun g => decide (g.Fitness = v))
        = [exTDNA6, exTDNA].filter (fun g => decide (g.Fitness = v))) ∧
    (∃ pr : List Raw.DNA × List Raw.DNA, Raw.createPool 0 [exRDNA9, exRDNA3] = some pr ∧
      List.Perm pr.2 [exRDNA9, exRDNA3] ∧
      pr.2.Pairwise (fun x y => x.Fitness ≤ y.Fitness) ∧
      ∀ v : Int, pr.2.filter (fun g => decide (g.Fitness = v))
        = [exRDNA9, exRDNA3].filter (fun g => decide (g.Fitness = v))) := by
  exact c10_createPool_sorts_in_place 0 [exTDNA6, exTDNA] (by decide)
    0 [exRDNA9, exRDNA3] (by decide)
